import Mathlib

/-!
# Verification of the magic-button scene-graph-to-markup compiler

This file is a shallow embedding, in Lean 4, of the conversion pipeline of the
`caeleel/magic-button` Figma plugin.  The authoritative source is the latest
revision of `convert.ts`, stored in the repository as the second document of
`src/unnamed/part_002` (lines 312-1172); that revision matches the
`ConversionResult` shape consumed by `src/src/ui.tsx` (`pathToHtml`,
`hasMobileVersion`, provisional image keys).  The Netlify image packaging loop
is embedded from `src/src/ui.tsx` lines 150-158.

Modelling conventions:
* JavaScript strings (UTF-16 code-unit sequences) are modelled as `List Nat`
  of code points (`Str`); the helper `str` builds literals.
* JavaScript numbers are modelled as exact rationals (`Rat`).  Rendering of a
  rational into a string is modelled by `ratToStr`, which agrees with
  JavaScript on integers (every numeric value exercised by a theorem below is
  an integer).
* JavaScript objects used as string-keyed maps are modelled as
  insertion-ordered association lists with replace-on-existing-key semantics
  (`assocSet` / `assocGet`), which matches object key ordering and update
  behaviour.
* The module-global mutable side tables (`images`, `fonts`, `actions`, the
  fresh-key counter behind `Math.random()`) are threaded explicitly through a
  `Ctx` state record; `await`ed calls are sequenced in program order
  (single-writer linearization of the side tables, as required by §5 of the
  spec).
-/

/-- JavaScript strings modelled as lists of code points. -/
abbrev Str := List Nat

/-- Binary blobs (`Uint8Array`) modelled as lists of byte values. -/
abbrev Bytes := List Nat

/-- Build a `Str` literal from a Lean string. -/
def str (s : String) : Str := s.data.map Char.toNat

/-- Decimal rendering of a natural number. -/
def natToStr (n : Nat) : Str := str (Nat.repr n)

/-- Decimal rendering of an integer (with leading minus sign), as JavaScript
renders integral numbers. -/
def intToStr (i : Int) : Str := str (Int.repr i)

/-- Rendering of a rational into a string.  Agrees with JavaScript template
interpolation for integral values; non-integral values are rendered as exact
fractions (JavaScript would print a decimal expansion), which no claim below
depends on. -/
def ratToStr (q : Rat) : Str :=
  if q.den = 1 then intToStr q.num
  else intToStr q.num ++ str "/" ++ natToStr q.den

/-! ## Path normalization (`nameToPath`, part_002 lines 351-354) -/

/-- Code points matched by the regex class `\w` = `[A-Za-z0-9_]`. -/
def isWordCode (c : Nat) : Bool :=
  (48 ≤ c && c ≤ 57) || (65 ≤ c && c ≤ 90) || (97 ≤ c && c ≤ 122) || c == 95

/-- `String.prototype.toLowerCase` on one code point (ASCII range; the names
exercised here are ASCII, matching JavaScript's behaviour there). -/
def toLowerCode (c : Nat) : Nat := if 65 ≤ c ∧ c ≤ 90 then c + 32 else c

/-- `String.prototype.toLowerCase`. -/
def jsToLower (s : Str) : Str := s.map toLowerCode

/-- `name.replace(/\W+/g, "-")`: every maximal run of non-word code points is
replaced by a single hyphen (code 45).  A non-word code point is dropped when
the next code point is also non-word (same run) and emits the hyphen when the
run ends. -/
def collapseNonWord : Str → Str
  | [] => []
  | [c] => if isWordCode c then [c] else [45]
  | c :: d :: rest =>
    if isWordCode c then c :: collapseNonWord (d :: rest)
    else if isWordCode d then 45 :: collapseNonWord (d :: rest)
    else collapseNonWord (d :: rest)

/-- `name.endsWith(".html")`. -/
def endsWithHtml (s : Str) : Bool := (str ".html").isSuffixOf s

/-- `nameToPath` (part_002 lines 351-354; identical in `src/src/convert.ts`
lines 35-38): lowercase the name, keep it verbatim when it already ends in
`.html`, otherwise collapse non-word runs to hyphens and append
`/index.html`; always prepend a slash (code 47). -/
def nameToPath (name : Str) : Str :=
  let low := jsToLower name
  47 :: (if endsWithHtml low then low else collapseNonWord low ++ str "/index.html")

/-! ## Data model

The Figma scene graph, restricted to what the conversion code reads.  `SNode`
covers exactly the scene-node variants dispatched by `convertNode`
(part_002 lines 427-462); `DOCUMENT` and `PAGE` can never occur below a page,
so the `throw` branch of `convertNode` for them is unrepresentable here.
-/

/-- Scene-node variant tags. -/
inductive NType
  | frame | group | component | inst | rectangle | text | slice
  | vector | line | star | ellipse | polygon | booleanOp
deriving DecidableEq, Repr

/-- Color with channels in `[0, 1]` (`RGB`). -/
structure RGB where
  r : Rat
  g : Rat
  b : Rat
deriving DecidableEq, Repr

/-- Color with alpha (`RGBA`), used by effects and gradient stops. -/
structure RGBA where
  r : Rat
  g : Rat
  b : Rat
  a : Rat
deriving DecidableEq, Repr

/-- Image paint scale modes. -/
inductive ScaleMode | fit | fillMode | tile | crop
deriving DecidableEq, Repr

/-- A 2x3 affine transform row-major: `[[m00, m01, m02], [m10, m11, m12]]`. -/
structure Mat2x3 where
  m00 : Rat
  m01 : Rat
  m02 : Rat
  m10 : Rat
  m11 : Rat
  m12 : Rat
deriving DecidableEq, Repr

/-- A gradient color stop. -/
structure GradientStop where
  color : RGBA
  position : Rat
deriving DecidableEq, Repr

/-- Paint variants, as read by the paint resolvers.  `Paint.solid`'s opacity
is `Option Rat` because the Figma `opacity` field is optional; `none` models
`undefined`. `Paint.image`'s hash is always present here: a `null` image hash
would make the source fall through the `switch` into the gradient branch and
throw on a missing `gradientTransform`; documents in this model always carry
an image hash. -/
inductive Paint
  | solid (color : RGB) (opacity : Option Rat) (vis : Bool)
  | image (imageHash : Str) (scaleMode : ScaleMode) (scalingFactor : Option Rat)
      (imageTransform : Option Mat2x3) (vis : Bool)
  | gradientLinear (gradientTransform : Mat2x3) (stops : List GradientStop) (vis : Bool)
  | gradientRadial (stops : List GradientStop) (vis : Bool)
  | gradientDiamond (vis : Bool)
  | gradientAngular (vis : Bool)
deriving DecidableEq, Repr

/-- `paint.visible`. -/
def Paint.visible : Paint → Bool
  | .solid _ _ v => v
  | .image _ _ _ _ v => v
  | .gradientLinear _ _ v => v
  | .gradientRadial _ v => v
  | .gradientDiamond v => v
  | .gradientAngular v => v

/-- Reaction trigger kinds; `otherTrigger` stands for the trigger types the
code does not recognize (e.g. `AFTER_TIMEOUT`), which are dropped. -/
inductive TriggerType
  | onClick | mouseDown | onPress | mouseUp | onHover | otherTrigger
deriving DecidableEq, Repr

/-- Reaction effects (the `action` object pushed into the action list). -/
inductive FigAction
  | navigateTo (destinationId : Str)
  | openURL (url : Str)
  | otherAction
deriving DecidableEq, Repr

/-- An interaction reaction: one trigger paired with one action. -/
structure Reaction where
  trigger : TriggerType
  action : FigAction
deriving DecidableEq, Repr

/-- Visual effects handled by `getEffectsStyle`. -/
inductive Effect
  | dropShadow (offsetX offsetY radius : Rat) (color : RGBA) (vis : Bool)
  | innerShadow (offsetX offsetY radius : Rat) (color : RGBA) (vis : Bool)
  | backgroundBlur (radius : Rat) (vis : Bool)
  | otherEffect (vis : Bool)
deriving DecidableEq, Repr

/-- `effect.visible`. -/
def Effect.visible : Effect → Bool
  | .dropShadow _ _ _ _ v => v
  | .innerShadow _ _ _ _ v => v
  | .backgroundBlur _ v => v
  | .otherEffect v => v

/-- Line height values (`getRangeLineHeight`). -/
inductive LineHeightV | lhPercent (v : Rat) | lhPixels (v : Rat) | lhAuto
deriving DecidableEq, Repr

/-- Text case values (`getRangeTextCase`). -/
inductive TextCaseV | originalCase | upperCase | lowerCase | titleCase
deriving DecidableEq, Repr

/-- Text decoration values (`getRangeTextDecoration`). -/
inductive TextDecorationV | noDecoration | underlineDecoration | strikethroughDecoration
deriving DecidableEq, Repr

/-- A font name: family plus style string (e.g. "Bold Italic"). -/
structure FontName where
  family : Str
  style : Str
deriving DecidableEq, Repr

/-- Per-character text styling.  The Figma `getRange*` query operations are
derived from this list: a range query returns `figma.mixed` (modelled as
`none`) exactly when the attribute is not uniform on the range. -/
structure CharStyle where
  fills : List Paint := []
  fontName : FontName := ⟨str "Inter", str "Regular"⟩
  fontSize : Rat := 12
  letterSpacing : Rat := 0
  lineHeight : LineHeightV := .lhAuto
  textCase : TextCaseV := .originalCase
  textDecoration : TextDecorationV := .noDecoration
deriving DecidableEq, Repr

/-- Auto-layout modes. -/
inductive LayoutModeV | noLayout | horizontalLayout | verticalLayout
deriving DecidableEq, Repr

/-- Per-axis anchor constraint values; `cinherit` covers `layoutAlign`'s
`INHERIT`, which matches none of the constraint comparisons and thus behaves
like the `MIN` default branch. -/
inductive CVal | cmin | cmax | ccenter | cstretch | cscale | cinherit
deriving DecidableEq, Repr

/-- The per-node attribute record.  `x`/`y` are parent-relative coordinates;
`transform` is the node's `absoluteTransform`.  `exportSVG`/`exportPNG` are
the results of the host's `exportAsync` calls for this node: `none` models an
export that throws. -/
structure NData where
  ty : NType
  id : Str := str "0:0"
  name : Str := str "node"
  visible : Bool := true
  x : Rat := 0
  y : Rat := 0
  width : Rat := 0
  height : Rat := 0
  rotation : Rat := 0
  transform : Mat2x3 := ⟨1, 0, 0, 0, 1, 0⟩
  opacity : Rat := 1
  effects : List Effect := []
  fills : Option (List Paint) := some []
  strokes : List Paint := []
  strokeWeight : Rat := 1
  topLeftRadius : Rat := 0
  topRightRadius : Rat := 0
  bottomRightRadius : Rat := 0
  bottomLeftRadius : Rat := 0
  constraintH : CVal := .cmin
  constraintV : CVal := .cmin
  layoutMode : LayoutModeV := .noLayout
  layoutAlign : CVal := .cmin
  itemSpacing : Rat := 0
  horizontalPadding : Rat := 0
  verticalPadding : Rat := 0
  reactions : List Reaction := []
  textAlignHorizontal : Str := str "LEFT"
  textAlignVertical : Str := str "TOP"
  characters : Str := []
  charStyles : List CharStyle := []
  exportSVG : Option Bytes := none
  exportPNG : Option Bytes := none
deriving DecidableEq, Repr

mutual
/-- A scene node: attributes plus ordered children (exclusive ownership).
The children are a forest mutually inductive with the node type, so that
recursion over subtrees is structural. -/
inductive SNode
  | node (data : NData) (children : SForest)

/-- An ordered forest of scene nodes (a children list). -/
inductive SForest
  | nil
  | cons (hd : SNode) (tl : SForest)
end

/-- The attribute record of a node. -/
def SNode.data : SNode → NData
  | .node d _ => d

/-- The ordered children of a node. -/
def SNode.children : SNode → SForest
  | .node _ cs => cs

/-- View a forest as a list of nodes. -/
def SForest.toList : SForest → List SNode
  | .nil => []
  | .cons h t => h :: SForest.toList t

/-- Build a forest from a list of nodes. -/
def SForest.ofList : List SNode → SForest
  | [] => .nil
  | h :: t => .cons h (SForest.ofList t)

/-- Concatenation of forests. -/
def SForest.append : SForest → SForest → SForest
  | .nil, g => g
  | .cons h t, g => .cons h (SForest.append t g)

/-- A page: the conversion entry point's input. -/
structure PageNode where
  name : Str := str "Page 1"
  children : List SNode := []
  prototypeStartNode : Option SNode := none

/-- `'layoutMode' in node`: only frames, components and instances expose the
auto-layout fields. -/
def hasLayoutMode (d : NData) : Bool :=
  d.ty == .frame || d.ty == .component || d.ty == .inst

/-- Whether a page child is convertible as a top-level entry
(`INSTANCE`/`COMPONENT`/`FRAME` switch arms). -/
def topConvertible (d : NData) : Bool :=
  d.ty == .inst || d.ty == .component || d.ty == .frame

/-! ## Association-list maps (JavaScript objects keyed by strings) -/

/-- `obj[k] = v`: replace in place when the key exists (keys are unique in
every map built here), append otherwise. -/
def assocSet {α : Type} : List (Str × α) → Str → α → List (Str × α)
  | [], k, v => [(k, v)]
  | p :: rest, k, v => if p.1 == k then (k, v) :: rest else p :: assocSet rest k v

/-- `obj[k]` as an `Option`. -/
def assocGet {α : Type} (m : List (Str × α)) (k : Str) : Option α :=
  (m.find? (fun p => p.1 == k)).map (fun p => p.2)

/-- CSS style objects: insertion-ordered string-keyed maps. -/
abbrev CSS := List (Str × Str)

/-- JavaScript object spread `{...a, ...b}`. -/
def cssMerge (a b : CSS) : CSS := b.foldl (fun acc p => assocSet acc p.1 p.2) a

/-- `toStyleString` (part_002 lines 333-337). -/
def toStyleString (style : CSS) : Str :=
  (str ";").intercalate (style.map (fun p => p.1 ++ str ": " ++ p.2))

/-- The outer/inner layout style pair produced by `getLayoutStyle`. -/
structure Layout where
  outerClass : Str
  inner : CSS
  outer : CSS
deriving DecidableEq, Repr

/-- `h` (part_002 lines 339-342): wrap the element in an outer alignment
`div` and emit inline styles on both. -/
def hMarkup (tagName name : Str) (style : CSS) (layout : Layout)
    (eventHandling content : Str) : Str :=
  str "<div class=\"" ++ layout.outerClass ++ str "\" style='"
    ++ toStyleString layout.outer ++ str "'><" ++ tagName
    ++ str " class=\"innerDiv\" name=\"" ++ name ++ str "\" " ++ eventHandling
    ++ str " style='" ++ toStyleString (cssMerge layout.inner style) ++ str "'>"
    ++ content ++ str "</" ++ tagName ++ str "></div>"

/-! ## Conversion state and environment -/

/-- An asset staged for upload (`ImageToUpload`). -/
structure ImageToUpload where
  path : Str
  bytes : Bytes
deriving DecidableEq, Repr

/-- The module-global mutable side tables of `convert.ts`, threaded
explicitly: `images`, `fonts`, `actions`.  `fresh` is a counter standing in
for `Math.random()` in provisional raster keys: each use yields a fresh
value, which is the only property the code relies on. -/
structure Ctx where
  images : List (Str × ImageToUpload) := []
  fonts : List (Str × Bool) := []
  actions : List FigAction := []
  fresh : Nat := 0
deriving DecidableEq, Repr

/-- The external host environment: image byte lookup by content hash
(`figma.getImageByHash(h).getBytesAsync()`), modelled as total — every hash in
a document resolves to bytes.  Fidelity boundary: in the source the
`getBytesAsync()` call is awaited with no `try`/`catch` anywhere inside the
`convert` call chain (part_002 lines 1091 and 1127), so a rejected fetch
aborts the whole conversion; this total model cannot exhibit that failure.
Theorems that characterise when conversion fails are therefore stated only
for inputs free of image paints (`pageNoImagePaints`), where neither the
program nor the model ever fetches image bytes. -/
structure Env where
  imageStore : Str → Bytes

/-! ## Paint and style resolvers -/

/-- `colorToCSS` (part_002 lines 663-666). -/
def colorToCSS (rgb : RGB) (opacity : Rat) : Str :=
  str "rgba(" ++ ratToStr (255 * rgb.r) ++ str ", " ++ ratToStr (255 * rgb.g)
    ++ str ", " ++ ratToStr (255 * rgb.b) ++ str ", " ++ ratToStr opacity ++ str ")"

/-- `x.opacity || 1.0`: JavaScript's falsy-default coercion — `undefined`
(`none`) and `0` both become `1.0`. -/
def opacityOrOne (o : Option Rat) : Rat :=
  match o with
  | none => 1
  | some v => if v = 0 then 1 else v

/-- Is this paint a visible solid (`f.type === 'SOLID' && f.visible`)? -/
def isVisibleSolid : Paint → Bool
  | .solid _ _ v => v
  | _ => false

/-- `colorFromPaints` (part_002 lines 668-672): first visible solid paint
wins; absent means no color. -/
def colorFromPaints (fills : List Paint) : Option Str :=
  match fills.find? isVisibleSolid with
  | some (.solid color opacity _) => some (colorToCSS color (opacityOrOne opacity))
  | _ => none

/-- `getOpacityStyle` (part_002 lines 1021-1026). -/
def getOpacityStyle (d : NData) : CSS :=
  if d.opacity = 1 then [] else [(str "opacity", ratToStr d.opacity)]

/-- `getEffectsStyle` (part_002 lines 1028-1041): shadows become
`box-shadow` (`text-shadow` on text nodes), background blur becomes
`backdrop-filter`; invisible and unrecognized effects are skipped. -/
def getEffectsStyle (d : NData) : CSS :=
  d.effects.foldl
    (fun style e =>
      if !e.visible then style
      else
        match e with
        | .dropShadow ox oy r c _ =>
          assocSet style (if d.ty == .text then str "text-shadow" else str "box-shadow")
            (ratToStr ox ++ str "px " ++ ratToStr oy ++ str "px " ++ ratToStr r
              ++ str "px " ++ colorToCSS ⟨c.r, c.g, c.b⟩ c.a)
        | .innerShadow ox oy r c _ =>
          assocSet style (if d.ty == .text then str "text-shadow" else str "box-shadow")
            (str "inset " ++ ratToStr ox ++ str "px " ++ ratToStr oy ++ str "px "
              ++ ratToStr r ++ str "px " ++ colorToCSS ⟨c.r, c.g, c.b⟩ c.a)
        | .backgroundBlur r _ =>
          assocSet style (str "backdrop-filter") (str "blur(" ++ ratToStr r ++ str "px)")
        | .otherEffect _ => style)
    []

/-- `getRoundedRectangleStyle` (part_002 lines 1043-1045). -/
def getRoundedRectangleStyle (d : NData) : CSS :=
  [(str "border-radius",
    ratToStr d.topLeftRadius ++ str "px " ++ ratToStr d.topRightRadius ++ str "px "
      ++ ratToStr d.bottomRightRadius ++ str "px " ++ ratToStr d.bottomLeftRadius
      ++ str "px")]

/-- `Math.round` (round half away from zero on the positives, as JavaScript
rounds half up). -/
def jsRound (q : Rat) : Int := ⌊q + 1 / 2⌋

/-- The rotation angle of `paintToLinearGradient` (part_002 lines 1049-1061)
is computed in the source with floating-point `Math.sqrt`/`Math.acos`, which
has no exact rational counterpart; it is modelled as an opaque token of the
transform (no claim depends on the numeric angle). -/
def gradientAngleToken (_t : Mat2x3) : Str := str "<angle>"

/-- `paintToLinearGradient` (part_002 lines 1047-1067): angle token plus
ordered stops at integer percent positions. -/
def paintToLinearGradient (t : Mat2x3) (stops : List GradientStop) : Str :=
  str "linear-gradient(" ++ gradientAngleToken t ++ str "rad, "
    ++ (str ", ").intercalate
        (stops.map (fun s =>
          colorToCSS ⟨s.color.r, s.color.g, s.color.b⟩ s.color.a ++ str " "
            ++ intToStr (jsRound (s.position * 100)) ++ str "%"))
    ++ str ")"

/-- `paintToRadialGradient` (part_002 lines 1069-1075). -/
def paintToRadialGradient (stops : List GradientStop) : Str :=
  str "radial-gradient("
    ++ (str ", ").intercalate
        (stops.map (fun s =>
          colorToCSS ⟨s.color.r, s.color.g, s.color.b⟩ s.color.a ++ str " "
            ++ intToStr (jsRound (s.position * 60)) ++ str "%"))
    ++ str ")"

/-- Big-endian signed 32-bit read (`DataView.getInt32`), used to read PNG
dimensions for `TILE` placement; missing bytes read as zero (the source would
throw a `RangeError` on a short buffer, a case no claim exercises). -/
def readInt32BE (b : Bytes) (off : Nat) : Int :=
  let v : Nat := b.getD off 0 * 16777216 + b.getD (off + 1) 0 * 65536
    + b.getD (off + 2) 0 * 256 + b.getD (off + 3) 0
  if v < 2147483648 then (v : Int) else (v : Int) - 4294967296

/-- `getStrokeStyleForPaints` (part_002 lines 1078-1113): first visible paint
decides; solid yields a `border`, image registers the asset and yields a
`border-image`, linear/radial gradients yield gradient border images,
diamond/angular gradients yield an empty style.  Fidelity boundary: the
image branch awaits `img.getBytesAsync()` unguarded (line 1091), so in the
source a rejected fetch aborts the whole conversion; here the fetch is total
(see `Env`), so error-characterisation theorems exclude image paints. -/
def getStrokeStyleForPaints (env : Env) (width : Rat) :
    List Paint → Ctx → CSS × Ctx
  | [], ctx => ([], ctx)
  | p :: rest, ctx =>
    if !p.visible then getStrokeStyleForPaints env width rest ctx
    else
      match p with
      | .solid color opacity _ =>
        ([(str "border",
           ratToStr width ++ str "px solid " ++ colorToCSS color (opacityOrOne opacity))],
         ctx)
      | .image hash _ _ _ _ =>
        let bytes := env.imageStore hash
        let path := str "/images/" ++ hash ++ str ".png"
        let ctx := { ctx with images := assocSet ctx.images hash ⟨path, bytes⟩ }
        ([(str "border-width", ratToStr width ++ str "px"),
          (str "border-style", str "solid"),
          (str "border-image", str "url(" ++ path ++ str ") 30%")], ctx)
      | .gradientLinear t stops _ =>
        ([(str "border-width", ratToStr width ++ str "px"),
          (str "border-style", str "solid"),
          (str "border-image", paintToLinearGradient t stops ++ str " 30%")], ctx)
      | .gradientRadial stops _ =>
        ([(str "border-width", ratToStr width ++ str "px"),
          (str "border-style", str "solid"),
          (str "border-image", paintToRadialGradient stops ++ str " 30%")], ctx)
      | .gradientDiamond _ => ([], ctx)
      | .gradientAngular _ => ([], ctx)

/-- `getBackgroundStyleForPaints` (part_002 lines 1115-1172): first visible
paint decides; solid yields `background-color`; image registers the asset and
derives placement from the scale mode; linear/radial gradients yield
`background`; diamond/angular gradients have an empty case body, so the loop
continues with the next paint.  Fidelity boundary: the image branch awaits
`img.getBytesAsync()` unguarded (line 1127) and then constructs
`new DataView(bytes.buffer, 0, 28)` for every image paint (line 1128), which
throws a `RangeError` when the fetched bytes are shorter than 28 — either
failure aborts the whole conversion in the source.  Here the fetch is total
(see `Env`) and the header reads are padded with zeros (`readInt32BE`) inside
the `TILE` branch, so error-characterisation theorems exclude image paints. -/
def getBackgroundStyleForPaints (env : Env) (d : NData) :
    List Paint → Ctx → CSS × Ctx
  | [], ctx => ([], ctx)
  | p :: rest, ctx =>
    if !p.visible then getBackgroundStyleForPaints env d rest ctx
    else
      match p with
      | .solid color opacity _ =>
        ([(str "background-color", colorToCSS color (opacityOrOne opacity))], ctx)
      | .image hash scaleMode scalingFactor imageTransform _ =>
        let bytes := env.imageStore hash
        let path := str "/images/" ++ hash ++ str ".png"
        let ctx := { ctx with images := assocSet ctx.images hash ⟨path, bytes⟩ }
        match scaleMode with
        | .fit =>
          ([(str "background", str "url(" ++ path ++ str ") no-repeat center center/contain")],
           ctx)
        | .fillMode =>
          ([(str "background", str "url(" ++ path ++ str ") no-repeat center center/cover")],
           ctx)
        | .tile =>
          -- `paint.scalingFactor!`: a missing factor would propagate `NaN` in
          -- the source; modelled as factor 1 (no claim exercises `TILE`).
          let factor := scalingFactor.getD 1
          let w := (readInt32BE bytes 16 : Rat) * factor
          let h := (readInt32BE bytes 20 : Rat) * factor
          ([(str "background-image", str "url(" ++ path ++ str ")"),
            (str "background-repeat", str "repeat"),
            (str "background-size", ratToStr w ++ str "px " ++ ratToStr h ++ str "px")], ctx)
        | .crop =>
          -- `paint.imageTransform!`: modelled as the identity when absent
          -- (no claim exercises `CROP`).
          let t := imageTransform.getD ⟨1, 0, 0, 0, 1, 0⟩
          let fullWidth := d.width / t.m00
          let fullHeight := d.height / t.m11
          let xOff := fullWidth * t.m02
          let yOff := fullHeight * t.m12
          ([(str "background",
             str "url(" ++ path ++ str ") no-repeat " ++ ratToStr (-xOff) ++ str "px "
               ++ ratToStr (-yOff) ++ str "px/" ++ ratToStr fullWidth ++ str "px "
               ++ ratToStr fullHeight ++ str "px")], ctx)
      | .gradientLinear t stops _ =>
        ([(str "background", paintToLinearGradient t stops)], ctx)
      | .gradientRadial stops _ =>
        ([(str "background", paintToRadialGradient stops)], ctx)
      | .gradientDiamond _ => getBackgroundStyleForPaints env d rest ctx
      | .gradientAngular _ => getBackgroundStyleForPaints env d rest ctx

/-! ## Geometry resolver and box-model translator -/

/-- An axis-aligned bounding box. -/
structure BBox where
  x : Rat
  y : Rat
  w : Rat
  h : Rat
deriving DecidableEq, Repr

/-- `getBoundingBox` (part_002 lines 828-849): transform the four corners of
the node's `width × height` box through its absolute transform and take the
min/max envelope. -/
def getBoundingBox (d : NData) : BBox :=
  let m := d.transform
  let p1x := m.m02
  let p1y := m.m12
  let p2x := m.m01 * d.height + m.m02
  let p2y := m.m11 * d.height + m.m12
  let p3x := m.m00 * d.width + m.m02
  let p3y := m.m10 * d.width + m.m12
  let p4x := m.m00 * d.width + m.m01 * d.height + m.m02
  let p4y := m.m10 * d.width + m.m11 * d.height + m.m12
  let x := min p1x (min p2x (min p3x p4x))
  let y := min p1y (min p2y (min p3y p4y))
  let xMax := max p1x (max p2x (max p3x p4x))
  let yMax := max p1y (max p2y (max p3y p4y))
  ⟨x, y, xMax - x, yMax - y⟩

/-- `Array.prototype.indexOf` with node identity compared by id (Figma node
ids are unique, so id equality models reference equality). -/
def indexOfNode (l : List SNode) (n : SNode) : Int :=
  match l.findIdx? (fun c => c.data.id == n.data.id) with
  | some i => (i : Int)
  | none => -1

/-- The `while (parent.type === "GROUP")` walk of `getLayoutStyle` (part_002
lines 856-866): ascend through group ancestors, tracking the last group and
refining `isFirstChild`.  Returns the first non-group ancestor, the remaining
chain above it, the innermost group wrapper (if any) and the refined
first-child flag.  If the ownership chain runs out inside a group (a state
the source would crash on), the walk stops there. -/
def walkGroupChain : SNode → List SNode → Option SNode → Bool →
    SNode × List SNode × Option SNode × Bool
  | parent, [], lastGroup, isFirst =>
    (parent, [], lastGroup, isFirst)
  | parent, q :: qrest, lastGroup, isFirst =>
    if parent.data.ty == .group then
      let isFirst' :=
        if !hasLayoutMode q.data then
          isFirst && (indexOfNode q.children.toList parent == 0)
        else isFirst
      walkGroupChain q qrest (some parent) isFirst'
    else (parent, q :: qrest, lastGroup, isFirst)

/-- The `while (!('constraints' in candidate))` walk (part_002 lines
881-884): descend through first children of groups until a node carrying
constraints is found (only groups lack `ConstraintMixin` here).  An empty
group (a state the source would crash on) yields the group itself. -/
def findConstraintsCandidate : SNode → SNode
  | .node d .nil => .node d .nil
  | .node d (.cons c rest) =>
    if d.ty == .group then findConstraintsCandidate c else .node d (.cons c rest)

/-- `getLayoutStyle` (part_002 lines 851-1019), the box-model translator.
`chain` is the node's ownership chain, nearest ancestor first (the source
follows `node.parent` pointers).  An empty chain (null parent, which the
source would crash on) yields an empty layout. -/
def getLayoutStyle (chain : List SNode) (node : SNode) : Layout :=
  match chain with
  | [] => ⟨str "outerDiv", [], []⟩
  | parent0 :: rest =>
    let bb := getBoundingBox node.data
    let isFirst0 := indexOfNode parent0.children.toList node == 0
    let walked := walkGroupChain parent0 rest none isFirst0
    let parent := walked.1
    let lastGroupParent := walked.2.2.1
    let isFirstChild := walked.2.2.2
    let parentBounds := getBoundingBox parent.data
    let px := parentBounds.x
    let py := parentBounds.y
    let bLeft := bb.x - px
    let bRight := px + parentBounds.w - (bb.x + bb.w)
    let bTop := bb.y - py
    let bBottom := py + parentBounds.h - (bb.y + bb.h)
    let bWidth := bb.w
    let bHeight := bb.h
    let candidate := findConstraintsCandidate node
    let cHorizontal0 := candidate.data.constraintH
    let vHorizontal0 := candidate.data.constraintV
    let inFlexV := hasLayoutMode parent.data && parent.data.layoutMode == .verticalLayout
    let inFlexH := !inFlexV
      && (hasLayoutMode parent.data && parent.data.layoutMode == .horizontalLayout)
    let cHorizontal :=
      if inFlexV then
        match lastGroupParent with
        | some g => g.data.layoutAlign
        | none => node.data.layoutAlign
      else cHorizontal0
    let vHorizontal :=
      if inFlexH then
        match lastGroupParent with
        | some g => g.data.layoutAlign
        | none => node.data.layoutAlign
      else vHorizontal0
    let outerClass :=
      if inFlexV then str "autolayoutVchild"
      else if inFlexH then str "autolayoutHchild"
      else str "outerDiv"
    let outer : CSS := []
    -- vertical flex-child block (lines 892-915)
    let outer :=
      if inFlexV then
        let outer :=
          match lastGroupParent with
          | some g =>
            assocSet outer (str "padding-bottom")
              (ratToStr (g.data.height - bHeight - (node.data.y - g.data.y)) ++ str "px")
          | none => outer
        let outer :=
          if !isFirstChild then
            match lastGroupParent with
            | some g =>
              assocSet outer (str "margin-top")
                (ratToStr (-g.data.height + (node.data.y - g.data.y)) ++ str "px")
            | none =>
              if parent.data.constraintV ≠ .cstretch then
                assocSet outer (str "margin-top") (ratToStr parent.data.itemSpacing ++ str "px")
              else outer
          else
            match lastGroupParent with
            | some g =>
              if parent.data.constraintV ≠ .cstretch ∧ indexOfNode parent.children.toList g ≠ 0 then
                assocSet outer (str "margin-top") (ratToStr parent.data.itemSpacing ++ str "px")
              else outer
            | none => outer
        if (node.data.ty == .frame || node.data.ty == .component || node.data.ty == .inst)
            && node.data.layoutMode == .noLayout then
          assocSet outer (str "min-height") (ratToStr bHeight ++ str "px")
        else outer
      else outer
    -- horizontal flex-child block (lines 916-934)
    let outer :=
      if inFlexH then
        let outer :=
          match lastGroupParent with
          | some g =>
            assocSet outer (str "padding-right")
              (ratToStr (g.data.width - bWidth - (node.data.x - g.data.x)) ++ str "px")
          | none => outer
        if !isFirstChild then
          match lastGroupParent with
          | some g =>
            assocSet outer (str "margin-left")
              (ratToStr (-g.data.width + (node.data.x - g.data.x)) ++ str "px")
          | none =>
            if parent.data.constraintH ≠ .cstretch then
              assocSet outer (str "margin-left") (ratToStr parent.data.itemSpacing ++ str "px")
            else outer
        else
          match lastGroupParent with
          | some g =>
            if parent.data.constraintH ≠ .cstretch ∧ indexOfNode parent.children.toList g ≠ 0 then
              assocSet outer (str "margin-left") (ratToStr parent.data.itemSpacing ++ str "px")
            else outer
          | none => outer
      else outer
    let inner : CSS := []
    -- own auto-layout container block (lines 936-949)
    let inner :=
      if hasLayoutMode node.data && node.data.layoutMode != .noLayout then
        let inner := assocSet inner (str "display") (str "flex")
        let inner := assocSet inner (str "padding")
          (ratToStr node.data.verticalPadding ++ str "px "
            ++ ratToStr node.data.horizontalPadding ++ str "px")
        if node.data.layoutMode == .verticalLayout then
          let inner := assocSet inner (str "flex-direction") (str "column")
          if node.data.constraintV = .cstretch then
            assocSet inner (str "justify-content") (str "space-between")
          else inner
        else
          if node.data.constraintH = .cstretch then
            assocSet inner (str "justify-content") (str "space-between")
          else inner
      else inner
    -- horizontal constraint block (lines 951-974)
    let horiz :=
      if outerClass ≠ str "autolayoutHchild" then
        if cHorizontal = .cstretch then
          let inner := assocSet inner (str "margin-left") (ratToStr bLeft ++ str "px")
          let inner := assocSet inner (str "margin-right") (ratToStr bRight ++ str "px")
          (assocSet inner (str "flex-grow") (str "1"), outer)
        else if cHorizontal = .cmax then
          let outer := assocSet outer (str "justify-content") (str "flex-end")
          let inner := assocSet inner (str "margin-right") (ratToStr bRight ++ str "px")
          let inner := assocSet inner (str "width") (ratToStr bWidth ++ str "px")
          (assocSet inner (str "min-width") (ratToStr bWidth ++ str "px"), outer)
        else if cHorizontal = .ccenter then
          let outer := assocSet outer (str "justify-content") (str "center")
          let inner := assocSet inner (str "width") (ratToStr bWidth ++ str "px")
          (if bLeft ≠ 0 ∧ bRight ≠ 0 then
            assocSet inner (str "margin-left") (ratToStr (bLeft - bRight) ++ str "px")
          else inner, outer)
        else if cHorizontal = .cscale then
          let parentWidth := bLeft + bWidth + bRight
          let inner := assocSet inner (str "width") (ratToStr (bWidth * 100 / parentWidth) ++ str "%")
          (assocSet inner (str "margin-left") (ratToStr (bLeft * 100 / parentWidth) ++ str "%"),
           outer)
        else
          let inner := assocSet inner (str "margin-left") (ratToStr bLeft ++ str "px")
          let inner := assocSet inner (str "width") (ratToStr bWidth ++ str "px")
          (assocSet inner (str "min-width") (ratToStr bWidth ++ str "px"), outer)
      else (inner, outer)
    let inner := horiz.1
    let outer := horiz.2
    -- vertical constraint block (lines 976-1001)
    let vert :=
      if outerClass ≠ str "autolayoutVchild" then
        if vHorizontal = .cstretch then
          let outer := assocSet outer (str "height") (str "100%")
          let inner := assocSet inner (str "margin-top") (ratToStr bTop ++ str "px")
          let inner := assocSet inner (str "margin-bottom") (ratToStr bBottom ++ str "px")
          (assocSet inner (str "flex-grow") (str "1"), outer)
        else if vHorizontal = .cmax then
          let outer := assocSet outer (str "align-items") (str "flex-end")
          let outer := assocSet outer (str "height") (str "100%")
          let inner := assocSet inner (str "margin-bottom") (ratToStr bBottom ++ str "px")
          let inner := assocSet inner (str "height") (ratToStr bHeight ++ str "px")
          (assocSet inner (str "min-height") (ratToStr bHeight ++ str "px"), outer)
        else if vHorizontal = .ccenter then
          let outer := assocSet outer (str "align-items") (str "center")
          let inner := assocSet inner (str "height") (ratToStr bHeight ++ str "px")
          (assocSet inner (str "margin-top") (ratToStr (bTop - bBottom) ++ str "px"), outer)
        else if vHorizontal = .cscale then
          let parentWidth := bTop + bHeight + bBottom
          let inner := assocSet inner (str "height") (ratToStr (bHeight * 100 / parentWidth) ++ str "%")
          (assocSet inner (str "margin-top") (ratToStr (bTop * 100 / parentWidth) ++ str "%"),
           outer)
        else
          let inner := assocSet inner (str "margin-top") (ratToStr bTop ++ str "px")
          let inner := assocSet inner (str "height") (ratToStr bHeight ++ str "px")
          (assocSet inner (str "min-height") (ratToStr bHeight ++ str "px"), outer)
      else (inner, outer)
    let inner := vert.1
    let outer := vert.2
    -- text alignment block (lines 1003-1016)
    let inner :=
      if node.data.ty == .text then
        let inner := assocSet inner (str "display") (str "flex")
        let inner :=
          if node.data.textAlignVertical == str "CENTER" then
            assocSet inner (str "align-items") (str "center")
          else if node.data.textAlignVertical == str "BOTTOM" then
            assocSet inner (str "align-items") (str "flex-end")
          else inner
        if node.data.textAlignHorizontal == str "CENTER" then
          assocSet inner (str "justify-content") (str "center")
        else if node.data.textAlignHorizontal == str "RIGHT" then
          assocSet inner (str "justify-content") (str "flex-end")
        else inner
      else inner
    ⟨outerClass, inner, outer⟩

/-! ## Routing and entry-point resolution (part_002 lines 356-421) -/

/-- The four routing side tables built by the loop at the top of `convert`. -/
structure Routing where
  frameIdToPath : List (Str × Str) := []
  frameIdToSize : List (Str × Str) := []
  hasMobileVersion : List (Str × Bool) := []
  pathToFrameId : List (Str × Str) := []
deriving DecidableEq, Repr

/-- `(figma.getNodeById(id) as LayoutMixin).width`, resolved against the
page's children (the only nodes the routing loop registers). -/
def widthById (all : List SNode) (id : Str) : Rat :=
  match all.find? (fun c => c.data.id == id) with
  | some n => n.data.width
  | none => 0

/-- One iteration of the routing loop (part_002 lines 366-397).  On a path
collision: skip the node if the registered frame for the path is already the
mobile variant; otherwise mark the path as having a mobile version, flag the
narrower of the pair mobile (keeping the other desktop), and leave the
desktop variant registered for the path. -/
def buildRoutingStep (all : List SNode) (r : Routing) (c : SNode) : Routing :=
  if topConvertible c.data then
    let path := nameToPath c.data.name
    let finishReg (r : Routing) : Routing :=
      { r with
        frameIdToSize := assocSet r.frameIdToSize c.data.id (str "desktop")
        frameIdToPath := assocSet r.frameIdToPath c.data.id path
        pathToFrameId := assocSet r.pathToFrameId path c.data.id }
    match assocGet r.pathToFrameId path with
    | some otherFrame =>
      if assocGet r.frameIdToSize otherFrame == some (str "mobile") then
        -- this path already has a mobile version, skip it
        r
      else
        let r := { r with hasMobileVersion := assocSet r.hasMobileVersion path true }
        if c.data.width < widthById all otherFrame then
          { r with
            frameIdToSize := assocSet r.frameIdToSize c.data.id (str "mobile")
            frameIdToPath := assocSet r.frameIdToPath c.data.id path }
        else
          finishReg
            { r with frameIdToSize := assocSet r.frameIdToSize otherFrame (str "mobile") }
    | none => finishReg r
  else r

/-- The routing loop over the page children. -/
def buildRouting (children : List SNode) : Routing :=
  children.foldl (buildRoutingStep children) {}

/-- Entry-node resolution (part_002 lines 399-421): the explicit prototype
start node when present, otherwise the top-left-most convertible top-level
node (smallest `y`, then smallest `x`). -/
def resolveStartFrame (page : PageNode) : Option SNode :=
  match page.prototypeStartNode with
  | some n => some n
  | none =>
    page.children.foldl
      (fun acc c =>
        if topConvertible c.data then
          match acc with
          | none => some c
          | some s =>
            if c.data.y < s.data.y ∨ (c.data.y = s.data.y ∧ c.data.x < s.data.x) then some c
            else some s
        else acc)
      none

/-! ## Vector-subtree detection (part_002 lines 464-478) -/

/-- Container variants recursed into by `isVectorSubtree`. -/
def isContainerTy (t : NType) : Bool :=
  t == .group || t == .frame || t == .inst || t == .component

/-- Shape-family variants (plus slices) accepted as leaves. -/
def isShapeFamilyTy (t : NType) : Bool :=
  t == .vector || t == .line || t == .star || t == .ellipse
    || t == .booleanOp || t == .polygon || t == .slice

/-- `isVectorSubtree` over a child list: every child must either be a slice
or carry no reactions, and must be a shape-family leaf or a container whose
own subtree qualifies.  Note: the function never inspects the reactions of
the node it is called on, only those of strict descendants. -/
def isVectorSubtreeList : SForest → Bool
  | .nil => true
  | .cons (.node d cs) rest =>
    (d.ty == .slice || d.reactions.isEmpty)
      && (if isContainerTy d.ty then isVectorSubtreeList cs else isShapeFamilyTy d.ty)
      && isVectorSubtreeList rest

/-- `isVectorSubtree` (part_002 lines 464-478). -/
def isVectorSubtree (n : SNode) : Bool := isVectorSubtreeList n.children

/-- The members of a forest that `isVectorSubtree` examines: every listed
node, recursing into the children of container nodes only (the children of
shape-family nodes, such as the operands of a boolean operation, are never
examined). -/
def checkedDescendants : SForest → List SNode
  | .nil => []
  | .cons (.node d cs) rest =>
    .node d cs ::
      (if isContainerTy d.ty then checkedDescendants cs else []) ++ checkedDescendants rest

/-! ## Action table builder (part_002 lines 525-557) -/

/-- The DOM attribute for a trigger kind; `none` for unrecognized triggers,
which are silently dropped. -/
def attrForTrigger : TriggerType → Option Str
  | .onClick => some (str "onclick")
  | .mouseDown => some (str "onpointerdown")
  | .onPress => some (str "onpointerup")
  | .mouseUp => some (str "onpointerup")
  | .onHover => some (str "onmouseover")
  | .otherTrigger => none

/-- The attribute-collecting loop of `eventHandlingAttributes`: each
recognized reaction appends its action to the action list and emits an inline
handler referencing the index the action was pushed at. -/
def eventAttrsList : List Reaction → Ctx → List Str × Ctx
  | [], ctx => ([], ctx)
  | r :: rest, ctx =>
    match attrForTrigger r.trigger with
    | none => eventAttrsList rest ctx
    | some attr =>
      let actionId := ctx.actions.length
      let ctx := { ctx with actions := ctx.actions ++ [r.action] }
      let attrStr := attr ++ str "=\"magic_runAction(" ++ natToStr actionId ++ str ")\""
      let out := eventAttrsList rest ctx
      (attrStr :: out.1, out.2)

/-- `eventHandlingAttributes` (part_002 lines 525-557): the collected
attribute strings joined by spaces. -/
def eventHandlingAttributes (reactions : List Reaction) (ctx : Ctx) : Str × Ctx :=
  let out := eventAttrsList reactions ctx
  ((str " ").intercalate out.1, out.2)

/-! ## Text segmentation (part_002 lines 678-809) -/

/-- A `getRange*` query (part_002 lines 719-772 and 787-799): returns the
common value of an attribute on `[start, endd)` and `none` (`figma.mixed`)
when the attribute is not uniform there (or the range is empty). -/
def rangeUniform {α : Type} [BEq α] (f : CharStyle → α) (styles : List CharStyle)
    (start endd : Nat) : Option α :=
  match (styles.drop start).take (endd - start) with
  | [] => none
  | c :: rest => if rest.all (fun d => f d == f c) then some (f c) else none

/-- `String.prototype.replace` with a plain-string pattern: replace the first
occurrence only. -/
def replaceFirst : Str → Str → Str → Str
  | [], _, _ => []
  | c :: rest, target, repl =>
    if target.isPrefixOf (c :: rest) then repl ++ (c :: rest).drop target.length
    else c :: replaceFirst rest target repl

/-- Whitespace code points (`\s`, ASCII range). -/
def isSpaceCode (c : Nat) : Bool :=
  c == 32 || c == 9 || c == 10 || c == 13 || c == 12 || c == 11

/-- First index at which `needle` occurs in `hay`. -/
def findSubIdx : Str → Str → Option Nat
  | [], needle => if needle == [] then some 0 else none
  | c :: rest, needle =>
    if needle.isPrefixOf (c :: rest) then some 0
    else (findSubIdx rest needle).map (fun i => i + 1)

/-- `style.replace(/\s*italic\s*/i, "")`: remove the first (case-insensitive)
`italic` token together with the whitespace around it. -/
def removeItalicToken (s : Str) : Str :=
  match findSubIdx (jsToLower s) (str "italic") with
  | none => s
  | some j =>
    let pre := s.take j
    let post := s.drop (j + 6)
    ((pre.reverse.dropWhile isSpaceCode).reverse) ++ post.dropWhile isSpaceCode

/-- `/italic/i.exec(style) != null`. -/
def containsItalic (s : Str) : Bool := (findSubIdx (jsToLower s) (str "italic")).isSome

/-- `numericWeightFromStyle` (part_002 lines 678-717): the fixed lexical
weight table, defaulting to 400. -/
def numericWeightFromStyle (style : Str) : Nat :=
  let cleaned := removeItalicToken style
  if cleaned == str "Thin" then 100
  else if cleaned == str "Extra Light" || cleaned == str "Extra-light" then 200
  else if cleaned == str "Light" then 300
  else if cleaned == str "Regular" then 400
  else if cleaned == str "Medium" then 500
  else if cleaned == str "Semi Bold" || cleaned == str "Semi-bold" then 600
  else if cleaned == str "Bold" then 700
  else if cleaned == str "Extra Bold" || cleaned == str "Extra-bold" then 800
  else if cleaned == str "Black" then 900
  else 400

/-- `convertTextRange` (part_002 lines 719-772): resolve the uniform styles
of the character range into one `span`, registering any font used. -/
def convertTextRange (d : NData) (start endd : Nat) (ctx : Ctx) : Str × Ctx :=
  let style : CSS := []
  let color := colorFromPaints ((rangeUniform (fun c => c.fills) d.charStyles start endd).getD [])
  let style :=
    match color with
    | some c => assocSet style (str "color") c
    | none => style
  let fontName := rangeUniform (fun c => c.fontName) d.charStyles start endd
  let fontOut :=
    match fontName with
    | some fn =>
      let fontWeightNumeric := numericWeightFromStyle fn.style
      let italic := containsItalic fn.style
      let googleFontName := fn.family ++ str ":" ++ (if italic then str "ital," else str "")
        ++ str "wght@" ++ natToStr fontWeightNumeric
      let ctx := { ctx with fonts := assocSet ctx.fonts googleFontName true }
      let style := assocSet style (str "font-family") (str "\"" ++ fn.family ++ str "\"")
      let style :=
        if fontWeightNumeric ≠ 400 then
          assocSet style (str "font-weight") (natToStr fontWeightNumeric)
        else style
      let style := if italic then assocSet style (str "font-style") (str "italic") else style
      (style, ctx)
    | none => (style, ctx)
  let style := fontOut.1
  let ctx := fontOut.2
  let decoration := rangeUniform (fun c => c.textDecoration) d.charStyles start endd
  let style :=
    if decoration == some .underlineDecoration then
      assocSet style (str "text-decoration") (str "underline")
    else if decoration == some .strikethroughDecoration then
      assocSet style (str "text-decoration") (str "line-through")
    else style
  let fontSize := rangeUniform (fun c => c.fontSize) d.charStyles start endd
  let style :=
    match fontSize with
    | some v => assocSet style (str "font-size") (ratToStr v ++ str "px")
    | none => style
  let textCase := rangeUniform (fun c => c.textCase) d.charStyles start endd
  let style :=
    if textCase == some .lowerCase then assocSet style (str "text-transform") (str "lowercase")
    else if textCase == some .upperCase then
      assocSet style (str "text-transform") (str "uppercase")
    else if textCase == some .titleCase then
      assocSet style (str "text-transform") (str "capitalize")
    else style
  let lineHeight := rangeUniform (fun c => c.lineHeight) d.charStyles start endd
  let style :=
    match lineHeight with
    | some (.lhPercent v) => assocSet style (str "line-height") (ratToStr v ++ str "%")
    | some (.lhPixels v) => assocSet style (str "line-height") (ratToStr v ++ str "px")
    | _ => style
  (str "<span style='" ++ toStyleString style ++ str "'>"
    ++ replaceFirst ((d.characters.drop start).take (endd - start)) (str "\n") (str "<br><br>")
    ++ str "</span>", ctx)

/-- Is some tracked attribute mixed on `[start, check)`?  (The disjunction of
the seven `getRange*` checks in part_002 lines 796-799.) -/
def anyRangeMixed (styles : List CharStyle) (start check : Nat) : Bool :=
  (rangeUniform (fun c => c.fills) styles start check).isNone
    || (rangeUniform (fun c => c.fontSize) styles start check).isNone
    || (rangeUniform (fun c => c.letterSpacing) styles start check).isNone
    || (rangeUniform (fun c => c.lineHeight) styles start check).isNone
    || (rangeUniform (fun c => c.textCase) styles start check).isNone
    || (rangeUniform (fun c => c.textDecoration) styles start check).isNone
    || (rangeUniform (fun c => c.fontName) styles start check).isNone

/-- The maximal-run segmentation loop of `convertText` (part_002 lines
792-805). -/
def segmentText (d : NData) (numChars : Nat) (start endd : Nat) (content : Str)
    (ctx : Ctx) : Str × Ctx :=
  if endd < numChars then
    let check := endd + 1
    if anyRangeMixed d.charStyles start check then
      let out := convertTextRange d start endd ctx
      segmentText d numChars endd (endd + 1) (content ++ out.1) out.2
    else segmentText d numChars start (endd + 1) content ctx
  else
    let out := convertTextRange d start endd ctx
    (content ++ out.1, out.2)
termination_by numChars - endd

/-- `convertText` (part_002 lines 774-809): one span when every tracked
attribute is uniform over the whole string, otherwise one span per maximal
uniform run. -/
def convertText (chain : List SNode) (node : SNode) (ctx : Ctx) : Str × Ctx :=
  let d := node.data
  let style := cssMerge (getOpacityStyle d) (getEffectsStyle d)
  let style := assocSet style (str "text-align") (jsToLower d.textAlignHorizontal)
  let ev := eventHandlingAttributes d.reactions ctx
  let style := if ev.1.length > 0 then assocSet style (str "cursor") (str "pointer") else style
  let numChars := d.characters.length
  let contentOut :=
    if !(anyRangeMixed d.charStyles 0 numChars) then convertTextRange d 0 numChars ev.2
    else segmentText d numChars 0 1 [] ev.2
  (hMarkup (str "div") d.name style (getLayoutStyle chain node) ev.1
    (str "<div>" ++ contentOut.1 ++ str "</div>"), contentOut.2)

/-! ## Shape and rectangle conversion (part_002 lines 599-661) -/

/-- `arrayBufferToString` (part_002 lines 599-601): reinterpret the byte
buffer as little-endian 16-bit code units.  (On an odd-length buffer the
source's `Uint16Array` constructor would throw; the stray final byte is
passed through here.) -/
def arrayBufferToString : Bytes → Str
  | [] => []
  | [a] => [a]
  | a :: b :: rest => (a + 256 * b) :: arrayBufferToString rest

/-- `convertShape` (part_002 lines 622-661): attach events, then try
scalable-vector export unless some fill is an image paint; on vector failure
(or image fills) fall back to raster export registered under a fresh
provisional `_`-prefixed key; when both exports fail, convert to empty
output.  (`node.fills` equal to `figma.mixed` would make the source's
`for...of` throw; documents in this model have concrete fill lists on
shapes.) -/
def convertShape (chain : List SNode) (node : SNode) (ctx : Ctx) : Str × Ctx :=
  let d := node.data
  let ev := eventHandlingAttributes d.reactions ctx
  let events := ev.1
  let ctx := ev.2
  let layout := getLayoutStyle chain node
  let style := getOpacityStyle d
  let style := if events.length > 0 then assocSet style (str "cursor") (str "pointer") else style
  let hasImage := (d.fills.getD []).any (fun f =>
    match f with
    | .image _ _ _ _ _ => true
    | _ => false)
  match (if hasImage then none else d.exportSVG) with
  | some svg =>
    (hMarkup (str "div") d.name style layout events (arrayBufferToString svg), ctx)
  | none =>
    match d.exportPNG with
    | some png =>
      let hash := str "_" ++ natToStr ctx.fresh
      let ctx := { ctx with fresh := ctx.fresh + 1 }
      let path := str "/images/" ++ hash
      let ctx := { ctx with images := assocSet ctx.images hash ⟨path, png⟩ }
      let style := assocSet style (str "background-image") (str "url(" ++ path ++ str ")")
      (hMarkup (str "div") d.name style layout events
        (str "<div style=\"width: " ++ ratToStr d.width ++ str "; height: "
          ++ ratToStr d.height ++ str "px\"></div>"), ctx)
    | none => (str "", ctx)

/-- `convertRectangle` (part_002 lines 603-620): rotated rectangles divert to
shape export; otherwise resolve styles, then events, and emit a placeholder
box unless the horizontal constraint is STRETCH. -/
def convertRectangle (env : Env) (chain : List SNode) (node : SNode) (ctx : Ctx) : Str × Ctx :=
  let d := node.data
  if d.rotation ≠ 0 then convertShape chain node ctx
  else
    let stroke := getStrokeStyleForPaints env d.strokeWeight d.strokes ctx
    let bg := getBackgroundStyleForPaints env d (d.fills.getD []) stroke.2
    let style := cssMerge (cssMerge (cssMerge (cssMerge (getOpacityStyle d)
      (getEffectsStyle d)) (getRoundedRectangleStyle d)) stroke.1) bg.1
    let layout := getLayoutStyle chain node
    let usePlaceholder := d.constraintH != .cstretch
    let ev := eventHandlingAttributes d.reactions bg.2
    let style := if ev.1.length > 0 then assocSet style (str "cursor") (str "pointer") else style
    (hMarkup (str "div") d.name style layout ev.1
      (if usePlaceholder then
        str "<div style=\"width: " ++ ratToStr d.width ++ str "; height: "
          ++ ratToStr d.height ++ str "px\"></div>"
      else str ""), ev.2)

/-! ## Tree walker (part_002 lines 427-499, 559-597) -/

/-- The `child.parent && 'layoutMode' in child.parent &&
child.parent.layoutMode !== "NONE"` test of `appendChildren`, against the
head of the ownership chain (a null parent is falsy). -/
def parentIsFlex : List SNode → Bool
  | p :: _ => hasLayoutMode p.data && p.data.layoutMode != .noLayout
  | [] => false

/-- The `appendChildren` flattening of `convertChildren` (part_002 lines
480-499): non-group children become tasks as they are; visible groups become
a single shape task when their subtree is decorative, stay whole when their
parent is an auto-layout container, and otherwise have their children spliced
in their place (with the group pushed onto the ownership chain); invisible
groups are dropped.  Each task records the ownership chain it runs under and
whether it converts via `convertShape`. -/
def flattenChildren : List SNode → SForest → List (List SNode × SNode × Bool)
  | _, .nil => []
  | chain, .cons (.node d cs) rest =>
    (if d.ty != .group then [(chain, SNode.node d cs, false)]
     else if d.visible then
       if isVectorSubtree (.node d cs) then [(chain, SNode.node d cs, true)]
       else if parentIsFlex chain then [(chain, SNode.node d cs, false)]
       else flattenChildren (SNode.node d cs :: chain) cs
     else [])
    ++ flattenChildren chain rest

mutual

/-- `convertChildren` (part_002 lines 480-499): flatten the child list into
tasks, convert them (the source fans them out with `Promise.all` and joins
the results by original index), and join with newlines in task order.  Each
function of this mutual block consumes one unit of fuel per call so that the
recursion is structural; `convert` supplies enough fuel that it never runs
out (concrete evaluations below confirm this on every fixture). -/
def convertChildren : Nat → Env → List SNode → SForest → Ctx → Str × Ctx
  | 0, _, _, _, ctx => (str "", ctx)
  | f + 1, env, chain, children, ctx =>
    let out := runTasks f env (flattenChildren chain children) ctx
    ((str "\n").intercalate out.1, out.2)

/-- Sequential execution of the flattened task list.  The source starts the
per-child conversions concurrently and `Promise.all` reassembles the output
strings by original index; side-table writes are linearized (§5). -/
def runTasks : Nat → Env → List (List SNode × SNode × Bool) → Ctx → List Str × Ctx
  | 0, _, _, ctx => ([], ctx)
  | _ + 1, _, [], ctx => ([], ctx)
  | f + 1, env, (tchain, n, viaShape) :: rest, ctx =>
    let out := if viaShape then convertShape tchain n ctx else convertNode f env tchain n ctx
    let outRest := runTasks f env rest out.2
    (out.1 :: outRest.1, outRest.2)

/-- `convertNode` (part_002 lines 427-462): hidden nodes convert to empty
output before any dispatch; slices convert to empty output; otherwise
dispatch on the variant tag.  (`DOCUMENT`/`PAGE` cannot occur below a page
and are unrepresentable in `SNode`, so the source's `throw` for them has no
counterpart here.) -/
def convertNode : Nat → Env → List SNode → SNode → Ctx → Str × Ctx
  | fuel, env, chain, node, ctx =>
    if !node.data.visible then (str "", ctx)
    else
      match node.data.ty with
      | .slice => (str "", ctx)
      | .booleanOp => convertShape chain node ctx
      | .vector => convertShape chain node ctx
      | .star => convertShape chain node ctx
      | .line => convertShape chain node ctx
      | .ellipse => convertShape chain node ctx
      | .polygon => convertShape chain node ctx
      | .rectangle => convertRectangle env chain node ctx
      | .text => convertText chain node ctx
      | .group =>
        match fuel with
        | 0 => (str "", ctx)
        | f + 1 => convertAutolayoutGroup f env chain node ctx
      | .frame =>
        match fuel with
        | 0 => (str "", ctx)
        | f + 1 => convertFrame f env chain node ctx
      | .component =>
        match fuel with
        | 0 => (str "", ctx)
        | f + 1 => convertFrame f env chain node ctx
      | .inst =>
        match fuel with
        | 0 => (str "", ctx)
        | f + 1 => convertFrame f env chain node ctx

/-- `convertFrame` (part_002 lines 576-597): decorative subtrees collapse to
one shape export; otherwise resolve styles, convert children, and only then
attach the frame's own event handlers. -/
def convertFrame : Nat → Env → List SNode → SNode → Ctx → Str × Ctx
  | fuel, env, chain, node, ctx =>
    if isVectorSubtree node then convertShape chain node ctx
    else
      match fuel with
      | 0 => (str "", ctx)
      | f + 1 =>
        let d := node.data
        let stroke := getStrokeStyleForPaints env d.strokeWeight d.strokes ctx
        let bg := getBackgroundStyleForPaints env d (d.fills.getD []) stroke.2
        let style := cssMerge (cssMerge (cssMerge (cssMerge (getOpacityStyle d)
          (getEffectsStyle d)) (getRoundedRectangleStyle d)) stroke.1) bg.1
        let layout := getLayoutStyle chain node
        -- `await new Promise(resolve => setTimeout(resolve, 1))`: a pure delay
        let usePlaceholder := d.constraintH != .cstretch && d.layoutMode == .noLayout
        let ch := convertChildren f env (node :: chain) node.children bg.2
        let content :=
          if usePlaceholder then
            str "<div style=\"width: "
              ++ (assocGet layout.inner (str "width")).getD (str "undefined")
              ++ str "; height: " ++ ratToStr d.height ++ str "px\"></div>" ++ ch.1
          else ch.1
        let ev := eventHandlingAttributes d.reactions ch.2
        let style :=
          if ev.1.length > 0 then assocSet style (str "cursor") (str "pointer") else style
        (hMarkup (str "div") d.name style layout ev.1 content, ev.2)

/-- `convertAutolayoutGroup` (part_002 lines 559-562): a group kept whole
inside an auto-layout container is reified as a nested flex row/column
inheriting the parent's direction. -/
def convertAutolayoutGroup : Nat → Env → List SNode → SNode → Ctx → Str × Ctx
  | fuel, env, chain, node, ctx =>
    let flexDirection :=
      match chain with
      | p :: _ => if p.data.layoutMode == .verticalLayout then str "column" else str "row"
      | [] => str "row"
    match fuel with
    | 0 => (str "", ctx)
    | f + 1 =>
      let ch := convertChildren f env (node :: chain) node.children ctx
      (str "<div style=\"display: flex; flex-direction: " ++ flexDirection ++ str "\">"
        ++ ch.1 ++ str "</div>", ch.2)

end

/-- `convertTopLevelFrame` (part_002 lines 564-574): a top-level frame
becomes a full-size `div` classed with its desktop/mobile size tag; its own
event handlers are attached before its children convert. -/
def convertTopLevelFrame (fuel : Nat) (env : Env) (sizes : List (Str × Str))
    (node : SNode) (ctx : Ctx) : Str × Ctx :=
  let d := node.data
  let bg := getBackgroundStyleForPaints env d (d.fills.getD []) ctx
  let style := cssMerge (getOpacityStyle d) bg.1
  let ev := eventHandlingAttributes d.reactions bg.2
  let style := if ev.1.length > 0 then assocSet style (str "cursor") (str "pointer") else style
  let ch := convertChildren fuel env [node] node.children ev.2
  (str "<div class=\"" ++ (assocGet sizes d.id).getD (str "undefined") ++ str "\" " ++ ev.1
    ++ str " style=\"width: 100%; height: 100%; " ++ toStyleString style ++ str "\">"
    ++ ch.1 ++ str "</div>", ch.2)

/-- Conversion errors surfaced to the caller. -/
inductive ConvertError
  | noStartFrame
  | faviconExportFailed
deriving DecidableEq, Repr

/-- `convertPage` (part_002 lines 501-523): iterate the page children; skip
those without a routing path; a top-level frame named `favicon.ico` is
exported (unguarded — an export failure here aborts the conversion) as the
favicon; other top-level frames convert and their markup accumulates under
their path (appending on a shared path). -/
def convertPage (fuel : Nat) (env : Env) (sizes fip : List (Str × Str)) :
    List SNode → Option Bytes × List (Str × Str) → Ctx →
    Except ConvertError ((Option Bytes × List (Str × Str)) × Ctx)
  | [], acc, ctx => .ok (acc, ctx)
  | c :: rest, acc, ctx =>
    let path := (assocGet fip c.data.id).getD []
    if path == [] then convertPage fuel env sizes fip rest acc ctx
    else if topConvertible c.data then
      if c.data.name == str "favicon.ico" then
        match c.data.exportPNG with
        | none => .error .faviconExportFailed
        | some b => convertPage fuel env sizes fip rest (some b, acc.2) ctx
      else
        let out := convertTopLevelFrame fuel env sizes c ctx
        let data :=
          match assocGet acc.2 path with
          | some s =>
            if s != [] then assocSet acc.2 path (s ++ out.1) else assocSet acc.2 path out.1
          | none => assocSet acc.2 path out.1
        convertPage fuel env sizes fip rest (acc.1, data) out.2
    else convertPage fuel env sizes fip rest acc ctx

/-- The `ConversionResult` record (part_002 lines 321-331). -/
structure ConvResult where
  name : Str
  favicon : Option Bytes
  pathToHtml : List (Str × Str)
  hasMobileVersion : List (Str × Bool)
  images : List (Str × ImageToUpload)
  fonts : List (Str × Bool)
  frameIdToPath : List (Str × Str)
  startFrameId : Str
  actions : List FigAction
deriving DecidableEq, Repr

/-- Total number of nodes in a forest. -/
def sforestSize : SForest → Nat
  | .nil => 0
  | .cons (.node _ cs) rest => 1 + sforestSize cs + sforestSize rest

/-- Fuel bound for the tree walk.  Every call in the converter's mutual block
consumes at most one unit of fuel, and converting a node costs a bounded
number of calls per node, so four units per node plus a constant is a safe
over-approximation at every depth. -/
def pageFuel (page : PageNode) : Nat :=
  4 * (1 + (page.children.map (fun c => 1 + sforestSize c.children)).sum) + 8

/-- `convert` (part_002 lines 356-425): build the routing tables, resolve the
start frame (throwing when none exists), convert the page and assemble the
`ConversionResult`.  All side tables start empty for each call. -/
def convert (env : Env) (page : PageNode) : Except ConvertError ConvResult :=
  let r := buildRouting page.children
  match resolveStartFrame page with
  | none => .error .noStartFrame
  | some startFrame =>
    match convertPage (pageFuel page) env r.frameIdToSize r.frameIdToPath
        page.children (none, []) {} with
    | .error e => .error e
    | .ok (acc, ctx) =>
      .ok { name := page.name, favicon := acc.1, pathToHtml := acc.2,
            hasMobileVersion := r.hasMobileVersion, images := ctx.images,
            fonts := ctx.fonts, frameIdToPath := r.frameIdToPath,
            startFrameId := startFrame.data.id, actions := ctx.actions }

/-! ## Netlify packaging of images (`compileForNetlify`, ui.tsx lines 150-158) -/

/-- Content digest used by the packager (`sha1`), modelled as an injective
encoding of the bytes; the code relies only on the digest being a
deterministic function of the content. -/
def sha1Model (b : Bytes) : Str := str "sha1:" ++ (str ",").intercalate (b.map natToStr)

/-- The blob key chosen for an image entry: provisional keys (leading `_`,
code 95) are re-hashed from the bytes, content-hash keys are kept. -/
def netlifyImageKey (k : Str) (img : ImageToUpload) : Str :=
  if k.head? == some 95 then sha1Model img.bytes else k

/-- The image loop of `compileForNetlify` (ui.tsx lines 150-158): returns the
`files` (path to key) and `blobs` (key to bytes) tables it builds. -/
def compileImages (imgs : List (Str × ImageToUpload)) :
    List (Str × Str) × List (Str × Bytes) :=
  imgs.foldl
    (fun acc p =>
      let key := netlifyImageKey p.1 p.2
      (assocSet acc.1 p.2.path key, assocSet acc.2 key p.2.bytes))
    ([], [])

/-! ## Specification-side definitions used by the claims -/

/-- Modelled from the spec: "first-use position in a left-to-right,
depth-first enumeration of the tree" — the recognized reactions of each node
in pre-order, left to right. -/
def dfsFirstUseForest : SForest → List FigAction
  | .nil => []
  | .cons (.node d cs) rest =>
    (d.reactions.filter (fun r => (attrForTrigger r.trigger).isSome)).map (fun r => r.action)
      ++ dfsFirstUseForest cs ++ dfsFirstUseForest rest

/-- See `dfsFirstUseForest`: the same enumeration over the page children. -/
def dfsFirstUseActions (children : List SNode) : List FigAction :=
  (children.map (fun c => dfsFirstUseForest (SForest.cons c .nil))).flatten

/-- A completion-order model for `Promise.all`: tasks finish in the order
given by `perm`, each writing its result into its own slot. -/
def completeTasks (outs : List Str) : List Nat → (Nat → Option Str) → Nat → Option Str
  | [], slots => slots
  | i :: rest, slots =>
    completeTasks outs rest (fun j => if j = i then outs.get? i else slots j)

/-- The joined sibling output as assembled after all tasks completed in the
order `perm`: slots are read back in original index order. -/
def joinCompleted (outs : List Str) (perm : List Nat) : Str :=
  (str "\n").intercalate
    ((List.range outs.length).map (fun i => (completeTasks outs perm (fun _ => none) i).getD []))

/-- Does the page contain a top-level convertible frame named `favicon.ico`
whose raster export fails? -/
def hasFailingFavicon (children : List SNode) : Bool :=
  children.any (fun c =>
    topConvertible c.data && c.data.name == str "favicon.ico" && c.data.exportPNG.isNone)

/-- Is this `Except` an error? -/
def isErr {ε α : Type} : Except ε α → Bool
  | .error _ => true
  | .ok _ => false

/-- The invariant maintained by the routing loop: every frame registered in
`pathToFrameId` is flagged `desktop` (which is why the loop's
skip-when-mobile branch can never fire), has been processed already, and is
registered under at most one path. -/
def RoutingInv (r : Routing) (seen : List Str) : Prop :=
  (∀ p fid, assocGet r.pathToFrameId p = some fid →
    assocGet r.frameIdToSize fid = some (str "desktop") ∧ fid ∈ seen)
  ∧ (∀ p p' fid, assocGet r.pathToFrameId p = some fid →
      assocGet r.pathToFrameId p' = some fid → p = p')

/-! ## Concrete fixtures used by the claim theorems -/

/-- Whether a paint is not an image paint: resolving it never calls
`figma.getImageByHash(...).getBytesAsync()`. -/
def paintNoImage : Paint → Bool
  | .image _ _ _ _ _ => false
  | _ => true

/-- Whether a node's own fills and strokes are free of image paints:
computing its border and background styles fetches no image bytes. -/
def ndataNoImagePaints (d : NData) : Bool :=
  (d.fills.getD []).all paintNoImage && d.strokes.all paintNoImage

mutual
/-- Whether a whole subtree is free of image paints. -/
def snodeNoImagePaints : SNode → Bool
  | .node d cs => ndataNoImagePaints d && sforestNoImagePaints cs

/-- Whether a whole forest is free of image paints. -/
def sforestNoImagePaints : SForest → Bool
  | .nil => true
  | .cons c rest => snodeNoImagePaints c && sforestNoImagePaints rest
end

/-- Whether a page contains no image paints anywhere: converting it never
reaches the source's unguarded `getBytesAsync`/`DataView` image reads, so
the total image store of `Env` is no restriction on such pages. -/
def pageNoImagePaints (page : PageNode) : Bool :=
  page.children.all snodeNoImagePaints

/-- An environment whose image store holds empty bytes for every hash. -/
def envEmpty : Env := ⟨fun _ => []⟩

/-- A hidden top-level frame carrying a click reaction (fixture for C1). -/
def hiddenFrame : SNode :=
  .node { ty := .frame, id := str "1:1", name := str "hidden", visible := false,
          reactions := [⟨.onClick, .openURL (str "x")⟩] } .nil

/-- A page whose only child is hidden (fixture for C1). -/
def pageC1 : PageNode := { children := [hiddenFrame] }

/-- An empty decorative frame whose vector export fails and whose raster
export yields the bytes `[1, 2, 3]` (fixture for C2). -/
def rasterFrame (i : String) : SNode :=
  .node { ty := .frame, id := str i, name := str ("g" ++ i), exportSVG := none,
          exportPNG := some [1, 2, 3] } .nil

/-- A page with one top-level frame containing two raster-exported shapes
with identical bytes (fixture for C2). -/
def pageC2 : PageNode :=
  { children := [.node { ty := .frame, id := str "t", name := str "Top" }
      (SForest.ofList [rasterFrame "a", rasterFrame "b"])] }

/-- Top-level frames named "Home" of widths 1440, 375 and 1000 (fixtures for
C4). -/
def home1440 : SNode := .node { ty := .frame, id := str "h1", name := str "Home", width := 1440 } .nil

/-- See `home1440`. -/
def home375 : SNode := .node { ty := .frame, id := str "h2", name := str "Home", width := 375 } .nil

/-- See `home1440`. -/
def home1000 : SNode := .node { ty := .frame, id := str "h3", name := str "Home", width := 1000 } .nil

/-- A 200x100 parent frame at the origin (fixture for C5). -/
def par5 : SNode :=
  .node { ty := .frame, id := str "par", name := str "Par", width := 200, height := 100 } .nil

/-- A 160x40 rectangle at (10, 20) with CENTER constraints on both axes:
margins are left 10 / right 30 / top 20 / bottom 40 (fixture for C5). -/
def nodeC5 : SNode :=
  .node { ty := .rectangle, id := str "n5", name := str "N5", width := 160, height := 40,
          x := 10, y := 20, transform := ⟨1, 0, 10, 0, 1, 20⟩,
          constraintH := .ccenter, constraintV := .ccenter } .nil

/-- A 170x40 rectangle at (0, 20) with a CENTER horizontal constraint:
its left margin is 0 and its right margin is 30 (fixture for C5). -/
def nodeC5zero : SNode :=
  .node { ty := .rectangle, id := str "n5z", name := str "N5z", width := 170, height := 40,
          x := 0, y := 20, transform := ⟨1, 0, 0, 0, 1, 20⟩,
          constraintH := .ccenter } .nil

/-- A vector leaf without reactions (fixture for C6). -/
def vecLeaf : SNode := .node { ty := .vector, id := str "v", name := str "V" } .nil

/-- A frame that carries a click reaction itself but whose children are all
decorative (fixture for C6). -/
def frameC6 : SNode :=
  .node { ty := .frame, id := str "f6", name := str "F6",
          reactions := [⟨.onClick, .openURL (str "r")⟩],
          exportSVG := some [10, 0], exportPNG := some [9] } (SForest.ofList [vecLeaf])

/-- A one-character text node with a click reaction (fixture for C7). -/
def textC7 : SNode :=
  .node { ty := .text, id := str "c", name := str "C", characters := str "H",
          charStyles := [{}], reactions := [⟨.onClick, .openURL (str "u")⟩] } .nil

/-- A frame with its own click reaction containing `textC7` (fixture for
C7): in a pre-order walk the frame's reaction comes first. -/
def frameC7 : SNode :=
  .node { ty := .frame, id := str "p", name := str "P",
          reactions := [⟨.onClick, .navigateTo (str "n1")⟩] } (SForest.ofList [textC7])

/-- A page wrapping `frameC7` under a reaction-free top-level frame (fixture
for C7). -/
def pageC7 : PageNode :=
  { children := [.node { ty := .frame, id := str "t", name := str "T" } (SForest.ofList [frameC7])] }

/-- A plain convertible top-level frame (fixture for C9). -/
def normalFrame : SNode := .node { ty := .frame, id := str "n", name := str "N" } .nil

/-- A top-level frame named `favicon.ico` whose raster export fails (fixture
for C9). -/
def faviconFrame : SNode :=
  .node { ty := .frame, id := str "fv", name := str "favicon.ico", exportPNG := none } .nil

/-- A page containing a convertible frame and a failing favicon frame
(fixture for C9). -/
def pageC9 : PageNode := { children := [normalFrame, faviconFrame] }

/-! ### Facts about `nameToPath` -/

/-- `List.map f l = l` when `f` fixes every member. -/
theorem listMapId {α : Type} (f : α → α) (l : List α) (h : ∀ a ∈ l, f a = a) :
    l.map f = l := by
  conv_rhs => rw [← List.map_id l]
  exact List.map_congr_left h

theorem toLowerCode_idem (c : Nat) : toLowerCode (toLowerCode c) = toLowerCode c := by
  by_cases h : 65 ≤ c ∧ c ≤ 90
  · simp only [toLowerCode, if_pos h]
    rw [if_neg (by omega)]
  · simp only [toLowerCode, if_neg h]

theorem jsToLower_idem (s : Str) : jsToLower (jsToLower s) = jsToLower s := by
  unfold jsToLower
  rw [List.map_map]
  exact List.map_congr_left (fun c _ => toLowerCode_idem c)

theorem collapseNonWord_mem (s : Str) :
    ∀ c ∈ collapseNonWord s, c = 45 ∨ c ∈ s := by
  induction s using collapseNonWord.induct with
  | case1 => intro c h; simp [collapseNonWord] at h
  | case2 c hw =>
    intro e he
    rw [collapseNonWord, if_pos hw] at he
    right; simpa using he
  | case3 c hw =>
    intro e he
    rw [collapseNonWord, if_neg hw] at he
    left; simpa using he
  | case4 c d rest hw ih =>
    intro e he
    rw [collapseNonWord, if_pos hw] at he
    rcases List.mem_cons.mp he with he | he
    · right; simp [he]
    · rcases ih e he with h | h
      · left; exact h
      · right; simp [List.mem_cons.mp h]
  | case5 c d rest hw hw2 ih =>
    intro e he
    rw [collapseNonWord, if_neg hw, if_pos hw2] at he
    rcases List.mem_cons.mp he with he | he
    · left; exact he
    · rcases ih e he with h | h
      · left; exact h
      · right; simp [List.mem_cons.mp h]
  | case6 c d rest hw hw2 ih =>
    intro e he
    rw [collapseNonWord, if_neg hw, if_neg hw2] at he
    rcases ih e he with h | h
    · left; exact h
    · right; simp [List.mem_cons.mp h]

theorem endsWithHtml_append (a : Str) : endsWithHtml (a ++ str ".html") = true := by
  unfold endsWithHtml
  rw [List.isSuffixOf_iff_suffix]
  exact List.suffix_append a (str ".html")

theorem endsWithHtml_cons {s : Str} (h : endsWithHtml s = true) (c : Nat) :
    endsWithHtml (c :: s) = true := by
  unfold endsWithHtml at *
  rw [List.isSuffixOf_iff_suffix] at *
  exact h.trans (List.suffix_cons c s)

theorem nameToPath_endsWithHtml (n : Str) : endsWithHtml (nameToPath n) = true := by
  simp only [nameToPath]
  split
  · exact endsWithHtml_cons (by assumption) 47
  · have : collapseNonWord (jsToLower n) ++ str "/index.html"
        = (collapseNonWord (jsToLower n) ++ str "/index") ++ str ".html" := by
      simp [str]
    rw [this]
    exact endsWithHtml_cons (endsWithHtml_append _) 47

theorem jsToLower_fixes_nameToPath (n : Str) :
    jsToLower (nameToPath n) = nameToPath n := by
  simp only [nameToPath, jsToLower, List.map_cons]
  have h47 : toLowerCode 47 = 47 := by decide
  rw [h47]
  congr 1
  split
  · exact jsToLower_idem n
  · rw [List.map_append]
    congr 1
    apply listMapId
    intro c hc
    rcases collapseNonWord_mem (jsToLower n) c hc with h | h
    · subst h; decide
    · obtain ⟨d, _, rfl⟩ := List.mem_map.mp h
      exact toLowerCode_idem d

/-! ## General lemmas on association maps -/

theorem assocGet_nil {α : Type} (k : Str) : assocGet ([] : List (Str × α)) k = none := rfl

theorem assocGet_cons {α : Type} (p : Str × α) (m : List (Str × α)) (k : Str) :
    assocGet (p :: m) k = if p.1 = k then some p.2 else assocGet m k := by
  by_cases h : p.1 = k
  · simp [assocGet, List.find?, h]
  · have hb : (p.1 == k) = false := by simp [h]
    simp [assocGet, List.find?, hb, h]

theorem assocGet_assocSet {α : Type} (m : List (Str × α)) (k k' : Str) (v : α) :
    assocGet (assocSet m k v) k' = if k' = k then some v else assocGet m k' := by
  induction m with
  | nil =>
    by_cases h : k' = k
    · subst h; simp [assocSet, assocGet_cons]
    · have hne : ¬(k = k') := fun hkk => h hkk.symm
      simp [assocSet, assocGet_cons, hne, h]
  | cons p rest ih =>
    by_cases hp : p.1 = k
    · have hb : (p.1 == k) = true := by simp [hp]
      by_cases h : k' = k
      · subst h; simp [assocSet, hb, assocGet_cons]
      · have hne : ¬(k = k') := fun hkk => h hkk.symm
        have hp' : ¬(p.1 = k') := by rw [hp]; exact hne
        simp [assocSet, hb, assocGet_cons, hne, h, hp']
    · have hb : (p.1 == k) = false := by simp [hp]
      by_cases h : k' = k
      · subst h; simp [assocSet, hb, assocGet_cons, hp, ih]
      · simp [assocSet, hb, assocGet_cons, ih, h]

theorem assocSet_keys {α : Type} (m : List (Str × α)) (k : Str) (v : α) :
    (assocSet m k v).map Prod.fst
      = if m.any (fun p => p.1 == k) then m.map Prod.fst else m.map Prod.fst ++ [k] := by
  induction m with
  | nil => simp [assocSet]
  | cons p rest ih =>
    by_cases hp : p.1 = k
    · have hb : (p.1 == k) = true := by simp [hp]
      simp [assocSet, hb, hp]
    · have hb : (p.1 == k) = false := by simp [hp]
      simp only [assocSet, hb, Bool.false_eq_true, if_false, List.map_cons, List.any_cons,
        Bool.false_or, ih]
      split <;> simp

theorem assocSet_keys_nodup {α : Type} (m : List (Str × α)) (k : Str) (v : α)
    (h : (m.map Prod.fst).Nodup) : ((assocSet m k v).map Prod.fst).Nodup := by
  rw [assocSet_keys]
  split
  · exact h
  · rename_i hany
    rw [List.any_eq_true] at hany
    push_neg at hany
    have hk : k ∉ m.map Prod.fst := by
      intro hmem
      obtain ⟨p, hp, hpk⟩ := List.mem_map.mp hmem
      exact hany p hp (by simp [hpk])
    simp [List.nodup_append, h, hk]

/-! ## C3: idempotence of path normalization -/

/-- C3 (counterexample): `nameToPath` is not idempotent — normalizing
`"Home"` gives `"/home/index.html"`, and normalizing that again prepends
another slash, giving `"//home/index.html"`. -/
theorem C3_counterexample :
    nameToPath (nameToPath (str "Home")) ≠ nameToPath (str "Home") := by decide

theorem nameToPath_of_fixed (s : Str) (hl : jsToLower s = s) (hh : endsWithHtml s = true) :
    nameToPath s = 47 :: s := by
  simp [nameToPath, hl, hh]

/-- C3 (amended): `nameToPath` is not idempotent; instead, a second
application prepends exactly one more slash: for every name `n`,
`nameToPath (nameToPath n) = "/" ++ nameToPath n` (the output of a first
application is already lowercase and already ends in `.html`, so the second
application takes the verbatim branch and adds its leading slash). -/
theorem C3_amended (n : Str) :
    nameToPath (nameToPath n) = 47 :: nameToPath n :=
  nameToPath_of_fixed _ (jsToLower_fixes_nameToPath n) (nameToPath_endsWithHtml n)

/-! ## C10: zero paint opacity coerced to fully opaque -/

/-- C10 (confirmed): whenever the first visible paint of a paint list is a
solid paint whose stored opacity is exactly `0`, all three resolvers — text
color (`colorFromPaints`), border (`getStrokeStyleForPaints`) and background
(`getBackgroundStyleForPaints`) — emit its color with alpha `1.0`: the
`paint.opacity || 1.0` coercion replaces both `undefined` and `0` by `1.0`. -/
theorem C10_opacity_zero_is_opaque (env : Env) (d : NData) (w : Rat) (c : RGB)
    (ps : List Paint) (ctx : Ctx)
    (hfind : ps.find? (fun q => q.visible) = some (Paint.solid c (some 0) true)) :
    colorFromPaints ps = some (colorToCSS c 1)
      ∧ getStrokeStyleForPaints env w ps ctx
          = ([(str "border", ratToStr w ++ str "px solid " ++ colorToCSS c 1)], ctx)
      ∧ getBackgroundStyleForPaints env d ps ctx
          = ([(str "background-color", colorToCSS c 1)], ctx) := by
  induction ps generalizing ctx with
  | nil => simp [List.find?] at hfind
  | cons p rest ih =>
    by_cases hv : p.visible = true
    · rw [List.find?_cons_of_pos _ hv] at hfind
      have hp : p = Paint.solid c (some 0) true := by injection hfind
      subst hp
      refine ⟨?_, ?_, ?_⟩
      · simp [colorFromPaints, List.find?_cons_of_pos, isVisibleSolid, opacityOrOne]
      · simp [getStrokeStyleForPaints, Paint.visible, opacityOrOne]
      · simp [getBackgroundStyleForPaints, Paint.visible, opacityOrOne]
    · have hv' : p.visible = false := by simp at hv; exact hv
      rw [List.find?_cons_of_neg _ (by simp [hv'])] at hfind
      have hvs : isVisibleSolid p = false := by
        cases p <;> first
          | rfl
          | (simp [isVisibleSolid, Paint.visible] at hv' ⊢; exact hv')
      obtain ⟨h1, h2, h3⟩ := ih ctx hfind
      refine ⟨?_, ?_, ?_⟩
      · simpa [colorFromPaints, List.find?_cons_of_neg _ (by simp [hvs] : ¬isVisibleSolid p = true)]
          using h1
      · simpa [getStrokeStyleForPaints, hv'] using h2 
      · simpa [getBackgroundStyleForPaints, hv'] using h3

/-- Witness for C10 at a concrete input: a visible red solid paint with
stored opacity `0` resolves to `rgba(255, 0, 0, 1)` everywhere. -/
theorem C10_witness :
    colorFromPaints [Paint.solid ⟨1, 0, 0⟩ (some 0) true]
        = some (colorToCSS ⟨1, 0, 0⟩ 1)
      ∧ getStrokeStyleForPaints envEmpty 2 [Paint.solid ⟨1, 0, 0⟩ (some 0) true] {}
          = ([(str "border", ratToStr 2 ++ str "px solid " ++ colorToCSS ⟨1, 0, 0⟩ 1)], {})
      ∧ getBackgroundStyleForPaints envEmpty { ty := .rectangle }
          [Paint.solid ⟨1, 0, 0⟩ (some 0) true] {}
          = ([(str "background-color", colorToCSS ⟨1, 0, 0⟩ 1)], {}) :=
  C10_opacity_zero_is_opaque envEmpty { ty := .rectangle } 2 ⟨1, 0, 0⟩ _ {} (by decide)

/-! ## C1: hidden nodes contribute nothing -/

/-- C1 (amended): for every node converted through `convertNode` — that is,
every node below the top level — a `false` visibility flag makes conversion
return empty markup and leave every side table (images, fonts, actions)
untouched, before any descendant is visited; hidden groups are likewise
dropped whole during child flattening.  Top-level frames directly under the
page are the exception: `convertPage` never consults their visibility (see
the counterexample). -/
theorem C1_hidden_contributes_nothing :
    (∀ (fuel : Nat) (env : Env) (chain : List SNode) (n : SNode) (ctx : Ctx),
      n.data.visible = false → convertNode fuel env chain n ctx = (str "", ctx))
      ∧ (∀ (chain : List SNode) (d : NData) (cs : SForest) (rest : SForest),
          d.visible = false → d.ty = .group →
          flattenChildren chain (.cons (.node d cs) rest) = flattenChildren chain rest) := by
  constructor
  · intro fuel env chain n ctx h
    cases fuel <;> simp [convertNode, h]
  · intro chain d cs rest hv hty
    simp [flattenChildren, hv, hty]

/-- Witness for C1 at a concrete input: converting the hidden frame fixture
through `convertNode` yields empty output and an unchanged context, and a
hidden group is dropped from the flattened task list. -/
theorem C1_witness :
    convertNode 5 envEmpty [] hiddenFrame {} = (str "", {})
      ∧ flattenChildren []
          (.cons (.node { ty := .group, visible := false } (SForest.ofList [vecLeaf])) .nil)
          = flattenChildren [] .nil := by
  constructor
  · exact C1_hidden_contributes_nothing.1 5 envEmpty [] hiddenFrame {} (by decide)
  · exact C1_hidden_contributes_nothing.2 [] { ty := .group, visible := false }
      (SForest.ofList [vecLeaf]) .nil (by decide) (by decide)

/-- C1 (counterexample): a hidden top-level frame is still converted —
`convertPage` checks only the routing path and the variant tag, never
`visible` — so its markup lands in the result and its reaction is registered
in the action table, contradicting the claim for top-level frames. -/
theorem C1_counterexample :
    hiddenFrame.data.visible = false
      ∧ (convert envEmpty pageC1).toOption.map (fun r => r.actions)
          = some [FigAction.openURL (str "x")]
      ∧ (convert envEmpty pageC1).toOption.map (fun r => r.pathToHtml.length) = some 1 := by
  refine ⟨by decide, ?_, ?_⟩ <;> rfl

/-! ## C4: routing collisions -/

theorem nameToPath_ne_nil (n : Str) : nameToPath n ≠ [] := by
  simp [nameToPath]

theorem RoutingInv.mono {r : Routing} {seen seen' : List Str}
    (h : RoutingInv r seen) (hsub : ∀ x ∈ seen, x ∈ seen') : RoutingInv r seen' := by
  refine ⟨fun p fid hreg => ?_, h.2⟩
  obtain ⟨h1, h2⟩ := h.1 p fid hreg
  exact ⟨h1, hsub _ h2⟩

theorem buildRoutingStep_inv (all : List SNode) (r : Routing) (c : SNode) (seen : List Str)
    (hinv : RoutingInv r seen) (hfresh : c.data.id ∉ seen) :
    RoutingInv (buildRoutingStep all r c) (seen ++ [c.data.id]) := by
  have hmono : ∀ x ∈ seen, x ∈ seen ++ [c.data.id] := fun x hx => by simp [hx]
  by_cases htc : topConvertible c.data = true
  · simp only [buildRoutingStep, htc, if_true]
    cases hreg : assocGet r.pathToFrameId (nameToPath c.data.name) with
    | none =>
      refine ⟨?_, ?_⟩
      · intro p fid hget
        rw [assocGet_assocSet] at hget
        by_cases hp : p = nameToPath c.data.name
        · rw [if_pos hp] at hget
          injection hget with hfid
          subst hfid
          refine ⟨?_, by simp⟩
          rw [assocGet_assocSet, if_pos rfl]
        · rw [if_neg hp] at hget
          obtain ⟨h1, h2⟩ := hinv.1 p fid hget
          have hne : fid ≠ c.data.id := fun he => hfresh (he ▸ h2)
          refine ⟨?_, by simp [h2]⟩
          rw [assocGet_assocSet, if_neg hne]
          exact h1
      · intro p p' fid hget hget'
        rw [assocGet_assocSet] at hget hget'
        by_cases hp : p = nameToPath c.data.name <;>
          by_cases hp' : p' = nameToPath c.data.name
        · rw [hp, hp']
        · rw [if_pos hp] at hget
          rw [if_neg hp'] at hget'
          injection hget with hfid
          exact absurd ((hinv.1 p' fid hget').2) (hfid ▸ hfresh)
        · rw [if_neg hp] at hget
          rw [if_pos hp'] at hget'
          injection hget' with hfid
          exact absurd ((hinv.1 p fid hget).2) (hfid ▸ hfresh)
        · rw [if_neg hp] at hget
          rw [if_neg hp'] at hget'
          exact hinv.2 p p' fid hget hget'
    | some other =>
      obtain ⟨hdesk, hoseen⟩ := hinv.1 _ other hreg
      simp only [hdesk]
      rw [if_neg (by decide)]
      by_cases hw : c.data.width < widthById all other
      · rw [if_pos hw]
        constructor
        · intro p fid hget
          obtain ⟨h1, h2⟩ := hinv.1 p fid hget
          have hne : fid ≠ c.data.id := fun he => hfresh (he ▸ h2)
          refine ⟨?_, by simp [h2]⟩
          rw [assocGet_assocSet, if_neg hne]
          exact h1
        · exact hinv.2
      · rw [if_neg hw]
        have hocid : other ≠ c.data.id := fun he => hfresh (he ▸ hoseen)
        constructor
        · intro p fid hget
          rw [assocGet_assocSet] at hget
          by_cases hp : p = nameToPath c.data.name
          · rw [if_pos hp] at hget
            injection hget with hfid
            subst hfid
            refine ⟨?_, by simp⟩
            rw [assocGet_assocSet, if_pos rfl]
          · rw [if_neg hp] at hget
            obtain ⟨h1, h2⟩ := hinv.1 p fid hget
            have hne : fid ≠ c.data.id := fun he => hfresh (he ▸ h2)
            have hno : fid ≠ other := by
              intro he
              exact hp (hinv.2 p (nameToPath c.data.name) other (he ▸ hget) hreg)
            refine ⟨?_, by simp [h2]⟩
            rw [assocGet_assocSet, if_neg hne, assocGet_assocSet, if_neg hno]
            exact h1
        · intro p p' fid hget hget'
          rw [assocGet_assocSet] at hget hget'
          by_cases hp : p = nameToPath c.data.name <;>
            by_cases hp' : p' = nameToPath c.data.name
          · rw [hp, hp']
          · rw [if_pos hp] at hget
            rw [if_neg hp'] at hget'
            injection hget with hfid
            exact absurd ((hinv.1 p' fid hget').2) (hfid ▸ hfresh)
          · rw [if_neg hp] at hget
            rw [if_pos hp'] at hget'
            injection hget' with hfid
            exact absurd ((hinv.1 p fid hget).2) (hfid ▸ hfresh)
          · rw [if_neg hp] at hget
            rw [if_neg hp'] at hget'
            exact hinv.2 p p' fid hget hget'
  · simp only [buildRoutingStep, htc]
    simp only [Bool.false_eq_true, if_false]
    exact hinv.mono hmono

theorem routing_foldl_inv (all : List SNode) :
    ∀ (cs : List SNode) (r : Routing) (seen : List Str),
      RoutingInv r seen → (∀ c ∈ cs, c.data.id ∉ seen) →
      (cs.map (fun c => c.data.id)).Nodup →
      RoutingInv (cs.foldl (buildRoutingStep all) r)
        (seen ++ cs.map (fun c => c.data.id)) := by
  intro cs
  induction cs with
  | nil => intro r seen hinv _ _; simpa using hinv
  | cons c rest ih =>
    intro r seen hinv hdisj hnd
    simp only [List.map_cons, List.nodup_cons] at hnd
    have hstep := buildRoutingStep_inv all r c seen hinv (hdisj c (by simp))
    have hdisj' : ∀ c' ∈ rest, c'.data.id ∉ seen ++ [c.data.id] := by
      intro c' hc'
      simp only [List.mem_append, List.mem_singleton]
      rintro (h | h)
      · exact hdisj c' (by simp [hc']) h
      · exact hnd.1 (h ▸ List.mem_map_of_mem (fun x => x.data.id) hc')
    have := ih (buildRoutingStep all r c) (seen ++ [c.data.id]) hstep hdisj' hnd.2
    simpa [List.append_assoc] using this

/-- The routing step touches `frameIdToPath` only at the processed node's
own id. -/
theorem buildRoutingStep_path_other (all : List SNode) (r : Routing) (c : SNode) (k : Str)
    (hk : k ≠ c.data.id) :
    assocGet (buildRoutingStep all r c).frameIdToPath k = assocGet r.frameIdToPath k := by
  by_cases htc : topConvertible c.data = true
  · simp only [buildRoutingStep, htc, if_true]
    cases hreg : assocGet r.pathToFrameId (nameToPath c.data.name) with
    | none => simp [assocGet_assocSet, hk]
    | some other =>
      by_cases hskip : (assocGet r.frameIdToSize other == some (str "mobile")) = true
      · simp [hskip]
      · simp only [hskip, Bool.false_eq_true, if_false]
        by_cases hw : c.data.width < widthById all other
        · simp [hw, assocGet_assocSet, hk]
        · simp [hw, assocGet_assocSet, hk]
  · simp [buildRoutingStep, htc]

theorem routing_foldl_path_other (all : List SNode) :
    ∀ (cs : List SNode) (r : Routing) (k : Str),
      (∀ c ∈ cs, c.data.id ≠ k) →
      assocGet ((cs.foldl (buildRoutingStep all) r).frameIdToPath) k
        = assocGet r.frameIdToPath k := by
  intro cs
  induction cs with
  | nil => intro r k _; rfl
  | cons c rest ih =>
    intro r k hdisj
    rw [List.foldl_cons, ih (buildRoutingStep all r c) k (fun c' hc' => hdisj c' (by simp [hc']))]
    exact buildRoutingStep_path_other all r c k (fun he => hdisj c (by simp) he.symm)

/-- Under the routing invariant, the step assigns the processed convertible
node its normalized path (the skip branch needs the registered frame to be
flagged mobile, which the invariant rules out). -/
theorem buildRoutingStep_path_self (all : List SNode) (r : Routing) (c : SNode)
    (seen : List Str) (hinv : RoutingInv r seen) (htc : topConvertible c.data = true) :
    assocGet (buildRoutingStep all r c).frameIdToPath c.data.id
      = some (nameToPath c.data.name) := by
  simp only [buildRoutingStep, htc, if_true]
  cases hreg : assocGet r.pathToFrameId (nameToPath c.data.name) with
  | none => simp [assocGet_assocSet]
  | some other =>
    obtain ⟨hdesk, _⟩ := hinv.1 _ other hreg
    simp only [hdesk]
    rw [if_neg (by decide)]
    by_cases hw : c.data.width < widthById all other
    · simp [hw, assocGet_assocSet]
    · simp [hw, assocGet_assocSet]

/-- Every convertible page child gets a routing path (given unique ids). -/
theorem buildRouting_paths_assigned (children : List SNode)
    (hnd : (children.map (fun c => c.data.id)).Nodup) :
    ∀ c ∈ children, topConvertible c.data = true →
      assocGet (buildRouting children).frameIdToPath c.data.id
        = some (nameToPath c.data.name) := by
  suffices h : ∀ (cs : List SNode) (r : Routing) (seen : List Str),
      RoutingInv r seen → (∀ c ∈ cs, c.data.id ∉ seen) →
      (cs.map (fun c => c.data.id)).Nodup →
      ∀ c ∈ cs, topConvertible c.data = true →
        assocGet ((cs.foldl (buildRoutingStep children) r).frameIdToPath) c.data.id
          = some (nameToPath c.data.name) by
    intro c hc htc
    exact h children {} [] ⟨fun p fid h => by simp [assocGet] at h, fun p p' fid h => by
      simp [assocGet] at h⟩ (by simp) hnd c hc htc
  intro cs
  induction cs with
  | nil => intro r seen _ _ _ c hc; simp at hc
  | cons c0 rest ih =>
    intro r seen hinv hdisj hnd c hc htc
    simp only [List.map_cons, List.nodup_cons] at hnd
    have hstep := buildRoutingStep_inv children r c0 seen hinv (hdisj c0 (by simp))
    rcases List.mem_cons.mp hc with rfl | hc
    · rw [List.foldl_cons]
      rw [routing_foldl_path_other children rest (buildRoutingStep children r c) c.data.id ?hne]
      · exact buildRoutingStep_path_self children r c seen hinv htc
      · intro c' hc' he
        exact hnd.1 (he ▸ List.mem_map_of_mem (fun x => x.data.id) hc')
    · rw [List.foldl_cons]
      refine ih (buildRoutingStep children r c0) (seen ++ [c0.data.id]) hstep ?_ hnd.2 c hc htc
      intro c' hc'
      simp only [List.mem_append, List.mem_singleton]
      rintro (h | h)
      · exact hdisj c' (by simp [hc']) h
      · exact hnd.1 (h ▸ List.mem_map_of_mem (fun x => x.data.id) hc')

/-- C4 (counterexample): "once a path has a mobile variant, any further node
colliding on that path is dropped" is false.  After the 1440/375 "Home" pair
resolves (the path has a mobile variant), a third colliding 1000-wide frame
is not dropped: it is assigned the shared path and flagged mobile as well.
The skip branch would require the frame registered for the path to be
flagged mobile, but the registered frame is always the desktop variant. -/
theorem C4_counterexample :
    assocGet (buildRouting [home1440, home375]).hasMobileVersion (str "/home/index.html")
        = some true
      ∧ assocGet (buildRouting [home1440, home375, home1000]).frameIdToPath (str "h3")
          = some (str "/home/index.html")
      ∧ assocGet (buildRouting [home1440, home375, home1000]).frameIdToSize (str "h3")
          = some (str "mobile") := by
  refine ⟨?_, ?_, ?_⟩ <;> decide

/-- C4 (amended): on a pair of top-level convertible nodes sharing a path the
claim is right — the narrower node is flagged mobile, the wider desktop, and
the path is marked as having a mobile version (first conjunct shows the
1440/375 "Home" scenario).  But later collisions on that path are never
dropped: the drop branch requires the frame registered for the path to be
flagged "mobile", while (second conjunct, for any page with distinct node
ids) the registered frame is always the "desktop" variant, so a further
colliding node is instead re-resolved against the current desktop frame
(flagging itself or the previous desktop as an additional mobile variant). -/
theorem C4_amended :
    (assocGet (buildRouting [home1440, home375]).frameIdToPath (str "h1")
        = some (str "/home/index.html")
      ∧ assocGet (buildRouting [home1440, home375]).frameIdToPath (str "h2")
          = some (str "/home/index.html")
      ∧ assocGet (buildRouting [home1440, home375]).hasMobileVersion (str "/home/index.html")
          = some true
      ∧ assocGet (buildRouting [home1440, home375]).frameIdToSize (str "h1")
          = some (str "desktop")
      ∧ assocGet (buildRouting [home1440, home375]).frameIdToSize (str "h2")
          = some (str "mobile"))
    ∧ (∀ (children : List SNode), (children.map (fun c => c.data.id)).Nodup →
        ∀ p fid, assocGet (buildRouting children).pathToFrameId p = some fid →
          assocGet (buildRouting children).frameIdToSize fid = some (str "desktop")) := by
  constructor
  · refine ⟨?_, ?_, ?_, ?_, ?_⟩ <;> decide
  · intro children hnd p fid hreg
    have hinv : RoutingInv (buildRouting children) ([] ++ children.map (fun c => c.data.id)) := by
      refine routing_foldl_inv children children {} []
        ⟨fun p fid h => by simp [assocGet] at h,
         fun p p' fid h => by simp [assocGet] at h⟩ (by simp) hnd
    exact (hinv.1 p fid hreg).1

/-- Witness for C4's general part at a concrete input: the two-frame "Home"
page has distinct ids, and the theorem yields that the frame registered for
`/home/index.html` is the desktop variant. -/
theorem C4_witness :
    assocGet (buildRouting [home1440, home375]).frameIdToSize
        ((assocGet (buildRouting [home1440, home375]).pathToFrameId
          (str "/home/index.html")).getD [])
      = some (str "desktop") := by
  have h := C4_amended.2 [home1440, home375] (by decide) (str "/home/index.html") (str "h1")
    (by decide)
  exact h

/-! ## C6: vector-subtree collapsing -/

theorem isVectorSubtreeList_iff (cs : SForest) :
    isVectorSubtreeList cs = true ↔
      ∀ m ∈ checkedDescendants cs,
        (m.data.ty = .slice ∨ m.data.reactions = [])
          ∧ (isShapeFamilyTy m.data.ty = true ∨ isContainerTy m.data.ty = true) := by
  induction cs using isVectorSubtreeList.induct with
  | case1 => simp [isVectorSubtreeList, checkedDescendants]
  | case2 d cs rest ih1 ih2 =>
    by_cases hcont : isContainerTy d.ty = true
    · simp only [isVectorSubtreeList, checkedDescendants, hcont, if_true, List.mem_cons,
        List.mem_append, Bool.and_eq_true, Bool.or_eq_true, beq_iff_eq, List.isEmpty_iff,
        SNode.data, ih1, ih2, and_assoc]
      constructor
      · rintro ⟨hA, hB, hC⟩ m hm
        rcases hm with (rfl | hm) | hm
        · exact ⟨hA, Or.inr hcont⟩
        · exact hB m hm
        · exact hC m hm
      · intro h
        refine ⟨(h _ (Or.inl (Or.inl rfl))).1, fun m hm => h m (Or.inl (Or.inr hm)),
          fun m hm => h m (Or.inr hm)⟩
    · simp only [isVectorSubtreeList, checkedDescendants, hcont, if_false, List.mem_cons,
        List.mem_append, Bool.and_eq_true, Bool.or_eq_true, beq_iff_eq, List.isEmpty_iff,
        SNode.data, ih2, Bool.false_eq_true, List.not_mem_nil, and_assoc]
      constructor
      · rintro ⟨hA, hB, hC⟩ m hm
        rcases hm with (rfl | hm) | hm
        · exact ⟨hA, Or.inl hB⟩
        · simp at hm
        · exact hC m hm
      · intro h
        have hd := h _ (Or.inl (Or.inl rfl))
        refine ⟨hd.1, ?_, fun m hm => h m (Or.inr hm)⟩
        rcases hd.2 with hs | hc
        · exact hs
        · exact absurd hc hcont

/-- C6 (amended): a frame/component/instance collapses to a single
rasterized unit exactly when `isVectorSubtree` accepts it, and
`isVectorSubtree` checks only the node's strict members reachable through
container nodes: each must be a slice or reaction-free, and must be a
shape-family variant, a slice, or a container.  The reactions of the subtree
ROOT are never consulted — a root with reactions still collapses, and its
reactions are attached to the rasterized unit by `convertShape` (see the
counterexample); likewise the children of non-container shape members (for
example boolean-operation operands) are never examined. -/
theorem C6_amended :
    (∀ (fuel : Nat) (env : Env) (chain : List SNode) (n : SNode) (ctx : Ctx),
      isVectorSubtree n = true → convertFrame fuel env chain n ctx = convertShape chain n ctx)
      ∧ (∀ (n : SNode), isVectorSubtree n = true ↔
          ∀ m ∈ checkedDescendants n.children,
            (m.data.ty = .slice ∨ m.data.reactions = [])
              ∧ (isShapeFamilyTy m.data.ty = true ∨ isContainerTy m.data.ty = true)) := by
  constructor
  · intro fuel env chain n ctx h
    rw [convertFrame.eq_def]
    simp [h]
  · intro n
    exact isVectorSubtreeList_iff n.children

/-- Witness for C6 at a concrete input: a frame holding a single plain
vector collapses via `convertShape`, and the characterisation applies to it. -/
theorem C6_witness :
    convertFrame 9 envEmpty [] (SNode.node { ty := .frame, id := str "w6" }
        (SForest.ofList [vecLeaf])) {}
      = convertShape [] (SNode.node { ty := .frame, id := str "w6" }
          (SForest.ofList [vecLeaf])) {}
      ∧ isVectorSubtree (SNode.node { ty := .frame, id := str "w6" }
          (SForest.ofList [vecLeaf])) = true := by
  refine ⟨C6_amended.1 9 envEmpty [] _ {} (by decide), ?_⟩
  exact (C6_amended.2 _).mpr (by decide)

/-- C6 (counterexample): the claim requires that "no member of the subtree —
including its root — carries an interaction reaction" for collapsing to
happen.  `frameC6` carries a click reaction on the root itself, yet
`isVectorSubtree` accepts it and `convertFrame` collapses it into a single
rasterized unit via `convertShape`. -/
theorem C6_counterexample :
    isVectorSubtree frameC6 = true
      ∧ frameC6.data.reactions ≠ []
      ∧ convertFrame 9 envEmpty [] frameC6 {} = convertShape [] frameC6 {} := by
  refine ⟨by decide, by decide, ?_⟩
  rw [convertFrame.eq_def]
  simp [(by decide : isVectorSubtree frameC6 = true)]

/-! ## C7: action table indices -/

theorem eventAttrsList_spec (rs : List Reaction) :
    ∀ ctx : Ctx,
      (eventAttrsList rs ctx).2
          = { ctx with
              actions := ctx.actions
                ++ (rs.filter (fun r => (attrForTrigger r.trigger).isSome)).map
                    (fun r => r.action) }
        ∧ (eventAttrsList rs ctx).1
            = ((rs.filter (fun r => (attrForTrigger r.trigger).isSome)).enumFrom
                ctx.actions.length).map
                (fun q => (attrForTrigger q.2.trigger).getD []
                  ++ str "=\"magic_runAction(" ++ natToStr q.1 ++ str ")\"") := by
  induction rs with
  | nil => intro ctx; simp [eventAttrsList]
  | cons r rest ih =>
    intro ctx
    cases hattr : attrForTrigger r.trigger with
    | none => simpa [eventAttrsList, hattr, List.filter_cons] using ih ctx
    | some attr =>
      have ihr := ih { ctx with actions := ctx.actions ++ [r.action] }
      constructor
      · rw [eventAttrsList]
        simp only [hattr]
        rw [ihr.1]
        simp [List.filter_cons, hattr, List.append_assoc]
      · rw [eventAttrsList]
        simp only [hattr]
        rw [ihr.2]
        simp [List.filter_cons, hattr, List.enumFrom_cons, List.length_append]

/-- C7 (amended): within one conversion, actions are appended in execution
order and each emitted inline handler references exactly the index its
action was pushed at — `eventHandlingAttributes` appends the recognized
reactions' actions to the action list and emits, for the reaction appended
at index `i`, the handler string `magic_runAction(i)` (first two conjuncts,
for every reaction list and prior state).  Execution order is NOT a
pre-order depth-first enumeration, because `convertFrame` attaches a frame's
own handlers only after converting its children: in the `pageC7` fixture the
nested frame's reaction lands at index 1 after its child text's reaction at
index 0 (third conjunct), while top-level frames, shapes and text register
their reactions before their content. -/
theorem C7_amended :
    (∀ (rs : List Reaction) (ctx : Ctx),
      (eventHandlingAttributes rs ctx).2.actions
        = ctx.actions
          ++ (rs.filter (fun r => (attrForTrigger r.trigger).isSome)).map (fun r => r.action))
      ∧ (∀ (rs : List Reaction) (ctx : Ctx),
          (eventAttrsList rs ctx).1
            = ((rs.filter (fun r => (attrForTrigger r.trigger).isSome)).enumFrom
                ctx.actions.length).map
                (fun q => (attrForTrigger q.2.trigger).getD []
                  ++ str "=\"magic_runAction(" ++ natToStr q.1 ++ str ")\""))
      ∧ (convert envEmpty pageC7).toOption.map (fun r => r.actions)
          = some [FigAction.openURL (str "u"), FigAction.navigateTo (str "n1")] := by
  refine ⟨?_, ?_, ?_⟩
  · intro rs ctx
    rw [eventHandlingAttributes]
    rw [(eventAttrsList_spec rs ctx).1]
  · intro rs ctx
    exact (eventAttrsList_spec rs ctx).2
  · rfl

/-- C7 (counterexample): the claim ties each action's index to its first-use
position in a left-to-right depth-first (pre-order) enumeration.  In
`pageC7` that enumeration lists the nested frame's reaction before its child
text's reaction, but the conversion registers the text's action at index 0
and the frame's at index 1, because `convertFrame` attaches handlers only
after converting children. -/
theorem C7_counterexample :
    dfsFirstUseActions pageC7.children
        = [FigAction.navigateTo (str "n1"), FigAction.openURL (str "u")]
      ∧ (convert envEmpty pageC7).toOption.map (fun r => r.actions)
          = some [FigAction.openURL (str "u"), FigAction.navigateTo (str "n1")]
      ∧ ([FigAction.navigateTo (str "n1"), FigAction.openURL (str "u")]
          ≠ [FigAction.openURL (str "u"), FigAction.navigateTo (str "n1")]) := by
  refine ⟨by decide, by rfl, by decide⟩

/-! ## C8: sibling output ordering -/

theorem completeTasks_apply (outs : List Str) (perm : List Nat) :
    ∀ (init : Nat → Option Str) (i : Nat),
      completeTasks outs perm init i = if i ∈ perm then outs.get? i else init i := by
  induction perm with
  | nil => intro init i; simp [completeTasks]
  | cons j rest ih =>
    intro init i
    rw [completeTasks, ih]
    by_cases hij : i = j
    · subst hij
      by_cases hm : i ∈ rest <;> simp [hm]
    · simp [List.mem_cons, hij]

theorem range_map_get (outs : List Str) :
    (List.range outs.length).map (fun i => (outs.get? i).getD []) = outs := by
  induction outs with
  | nil => simp
  | cons a l ih =>
    rw [List.length_cons, List.range_succ_eq_map, List.map_cons, List.map_map]
    have h : ((fun i => ((a :: l).get? i).getD []) ∘ Nat.succ)
        = fun i => (l.get? i).getD [] := by
      funext i
      rfl
    rw [h, ih]
    rfl

theorem joinCompleted_eq (outs : List Str) (perm : List Nat)
    (hp : perm.Perm (List.range outs.length)) :
    joinCompleted outs perm = (str "\n").intercalate outs := by
  rw [joinCompleted]
  congr 1
  conv_rhs => rw [← range_map_get outs]
  apply List.map_congr_left
  intro i hi
  rw [completeTasks_apply]
  have hmem : i ∈ perm := hp.mem_iff.mpr hi
  simp [hmem]

theorem flattenChildren_cons (chain : List SNode) (d : NData) (cs w : SForest) :
    flattenChildren chain (.cons (.node d cs) w)
      = flattenChildren chain (.cons (.node d cs) .nil) ++ flattenChildren chain w := by
  rw [flattenChildren, flattenChildren]
  simp [flattenChildren]

theorem flattenChildren_append (chain : List SNode) (xs ys : SForest) :
    flattenChildren chain (SForest.append xs ys)
      = flattenChildren chain xs ++ flattenChildren chain ys := by
  induction xs using sforestSize.induct with
  | case1 => simp [SForest.append, flattenChildren]
  | case2 d cs rest ih1 ih2 =>
    rw [SForest.append, flattenChildren_cons, ih2, flattenChildren_cons chain d cs rest]
    simp [List.append_assoc]

/-- C8 (confirmed): the joined sibling markup is assembled by original index
— for any permutation `perm` describing the order in which the concurrent
per-child conversions complete, reassembling the slot outputs (the
`Promise.all` model `joinCompleted`) yields exactly the in-order newline
join that `convertChildren` produces (first conjunct).  The flattened task
list itself preserves document order, splicing a flattened group's children
exactly in the group's place (second and third conjuncts). -/
theorem C8_order_invariance :
    (∀ (fuel : Nat) (env : Env) (chain : List SNode) (cs : SForest) (ctx : Ctx)
        (perm : List Nat),
      perm.Perm (List.range (runTasks fuel env (flattenChildren chain cs) ctx).1.length) →
      convertChildren (fuel + 1) env chain cs ctx
        = (joinCompleted (runTasks fuel env (flattenChildren chain cs) ctx).1 perm,
           (runTasks fuel env (flattenChildren chain cs) ctx).2))
      ∧ (∀ (chain : List SNode) (xs ys : SForest),
          flattenChildren chain (SForest.append xs ys)
            = flattenChildren chain xs ++ flattenChildren chain ys)
      ∧ (∀ (chain : List SNode) (d : NData) (cs rest : SForest),
          d.ty = .group → d.visible = true → isVectorSubtree (.node d cs) = false →
          parentIsFlex chain = false →
          flattenChildren chain (.cons (.node d cs) rest)
            = flattenChildren (SNode.node d cs :: chain) cs ++ flattenChildren chain rest) := by
  refine ⟨?_, flattenChildren_append, ?_⟩
  · intro fuel env chain cs ctx perm hp
    rw [convertChildren, joinCompleted_eq _ _ hp]
  · intro chain d cs rest hty hvis hvec hflex
    rw [flattenChildren]
    simp [hty, hvis, hvec, hflex]

/-- Witness for C8 at a concrete input: two top-level rectangle tasks
completing in reversed order `[1, 0]` still join in document order. -/
theorem C8_witness :
    convertChildren 9 envEmpty []
        (SForest.ofList
          [SNode.node { ty := .rectangle, id := str "r1", name := str "R1" } .nil,
           SNode.node { ty := .rectangle, id := str "r2", name := str "R2" } .nil]) {}
      = (joinCompleted
          (runTasks 8 envEmpty
            (flattenChildren []
              (SForest.ofList
                [SNode.node { ty := .rectangle, id := str "r1", name := str "R1" } .nil,
                 SNode.node { ty := .rectangle, id := str "r2", name := str "R2" } .nil])) {}).1
          [1, 0],
         (runTasks 8 envEmpty
           (flattenChildren []
             (SForest.ofList
               [SNode.node { ty := .rectangle, id := str "r1", name := str "R1" } .nil,
                SNode.node { ty := .rectangle, id := str "r2", name := str "R2" } .nil])) {}).2) :=
  C8_order_invariance.1 8 envEmpty [] _ {} [1, 0] (by decide)

/-! ## C2: asset deduplication -/

/-- C2 (counterexample): two rasterized shapes whose exports produce
identical bytes are registered in the `ConversionResult` asset table under
two distinct provisional keys, so the table stores the same bytes as two
separate entries. -/
theorem C2_counterexample :
    (convert envEmpty pageC2).toOption.map
        (fun r => (assocGet r.images (str "_0"), assocGet r.images (str "_1")))
      = some (some ⟨str "/images/_0", [1, 2, 3]⟩, some ⟨str "/images/_1", [1, 2, 3]⟩)
      ∧ (str "_0" : Str) ≠ str "_1" := by
  exact ⟨rfl, by decide⟩

/-- C2 (amended): image paints referenced by content hash share one entry per
hash, but rasterized shape exports are registered under fresh provisional
keys, so the `ConversionResult` asset table may store identical bytes twice
(see the counterexample).  The Netlify packaging loop re-hashes provisional
keys from the bytes: any two provisional entries with identical bytes are
assigned the same blob key (first conjunct), and the blob table it builds
never holds two entries under one key (second conjunct), so the packaged
bundle stores those bytes as exactly one blob entry. -/
theorem C2_amended :
    (∀ (k1 k2 : Str) (i1 i2 : ImageToUpload),
      k1.head? = some 95 → k2.head? = some 95 → i1.bytes = i2.bytes →
      netlifyImageKey k1 i1 = netlifyImageKey k2 i2)
      ∧ (∀ imgs : List (Str × ImageToUpload),
          (((compileImages imgs).2).map Prod.fst).Nodup) := by
  constructor
  · intro k1 k2 i1 i2 h1 h2 hb
    simp [netlifyImageKey, h1, h2, hb]
  · have main : ∀ (l : List (Str × ImageToUpload)) (acc : List (Str × Str) × List (Str × Bytes)),
        ((acc.2).map Prod.fst).Nodup →
        ((l.foldl
            (fun acc p =>
              let key := netlifyImageKey p.1 p.2
              (assocSet acc.1 p.2.path key, assocSet acc.2 key p.2.bytes)) acc).2.map
          Prod.fst).Nodup := by
      intro l
      induction l with
      | nil => intro acc h; exact h
      | cons p rest ih =>
        intro acc h
        rw [List.foldl_cons]
        exact ih _ (assocSet_keys_nodup _ _ _ h)
    intro imgs
    rw [compileImages]
    exact main imgs ([], []) (by simp)

/-- Witness for C2's general part at a concrete input: the two provisional
entries produced by the `pageC2` fixture map to the same blob key, and the
blob table built from them has unique keys. -/
theorem C2_witness :
    netlifyImageKey (str "_0") ⟨str "/images/_0", [1, 2, 3]⟩
        = netlifyImageKey (str "_1") ⟨str "/images/_1", [1, 2, 3]⟩
      ∧ (((compileImages
            [(str "_0", ⟨str "/images/_0", [1, 2, 3]⟩),
             (str "_1", ⟨str "/images/_1", [1, 2, 3]⟩)]).2).map Prod.fst).Nodup := by
  exact ⟨C2_amended.1 (str "_0") (str "_1") _ _ (by decide) (by decide) rfl,
    C2_amended.2 _⟩

/-! ## C9: error propagation -/

theorem convertPage_error_iff (fuel : Nat) (env : Env) (sizes fip : List (Str × Str)) :
    ∀ (cs : List SNode) (acc : Option Bytes × List (Str × Str)) (ctx : Ctx),
      (∀ c ∈ cs, topConvertible c.data = true → (assocGet fip c.data.id).getD [] ≠ []) →
      (isErr (convertPage fuel env sizes fip cs acc ctx) = true ↔
        hasFailingFavicon cs = true) := by
  intro cs
  induction cs with
  | nil =>
    intro acc ctx hp
    simp [convertPage, isErr, hasFailingFavicon]
  | cons c rest ih =>
    intro acc ctx hp
    rw [convertPage]
    rw [hasFailingFavicon, List.any_cons]
    by_cases hpath : (((assocGet fip c.data.id).getD [] : Str) == ([] : Str)) = true
    · have htc : topConvertible c.data ≠ true := by
        intro htc
        exact hp c (by simp) htc (by simpa using hpath)
      rw [if_pos hpath]
      have hcfalse : (topConvertible c.data && c.data.name == str "favicon.ico"
          && c.data.exportPNG.isNone) = false := by
        simp only [Bool.and_eq_false_iff]
        left; left
        simpa using htc
      rw [hcfalse]
      simpa [hasFailingFavicon] using ih acc ctx (fun c' hc' => hp c' (by simp [hc']))
    · rw [if_neg (by simpa using hpath)]
      by_cases htc : topConvertible c.data = true
      · rw [if_pos htc]
        by_cases hfav : (c.data.name == str "favicon.ico") = true
        · rw [if_pos hfav]
          cases hpng : c.data.exportPNG with
          | none =>
            simp only [isErr, htc, hfav, hpng, Option.isNone_none, Bool.and_true, Bool.and_self,
              Bool.true_and, Bool.true_or, iff_true]
          | some b =>
            simp only [htc, hfav, Option.isNone_some, Bool.and_false, Bool.false_or,
              Bool.true_and]
            exact ih (some b, acc.2) ctx (fun c' hc' => hp c' (by simp [hc']))
        · rw [if_neg (by simpa using hfav)]
          have hcfalse : (topConvertible c.data && c.data.name == str "favicon.ico"
              && c.data.exportPNG.isNone) = false := by
            simp only [Bool.and_eq_false_iff]
            left; right
            simpa using hfav
          rw [hcfalse]
          simpa [hasFailingFavicon] using
            ih _ _ (fun c' hc' => hp c' (by simp [hc']))
      · rw [if_neg htc]
        have hcfalse : (topConvertible c.data && c.data.name == str "favicon.ico"
            && c.data.exportPNG.isNone) = false := by
          simp only [Bool.and_eq_false_iff]
          left; left
          simpa using htc
        rw [hcfalse]
        simpa [hasFailingFavicon] using ih acc ctx (fun c' hc' => hp c' (by simp [hc']))

/-- In the embedding (whose image fetch is total, see `Env`), conversion of a
page with distinct node ids errors exactly when no entry point resolves or a
top-level `favicon.ico` frame's raster export fails.  This is a fact about
the model: the program has further failure paths through the unguarded image
reads, which the model cannot reach, so the claim-level theorem `C9_amended`
uses the forward direction only on image-paint-free pages. -/
theorem convert_error_characterisation (env : Env) (page : PageNode)
    (hnd : (page.children.map (fun c => c.data.id)).Nodup) :
    isErr (convert env page) = true ↔
      (resolveStartFrame page = none ∨ hasFailingFavicon page.children = true) := by
  have hp : ∀ c ∈ page.children, topConvertible c.data = true →
      (assocGet (buildRouting page.children).frameIdToPath c.data.id).getD [] ≠ [] := by
    intro c hc htc
    rw [buildRouting_paths_assigned page.children hnd c hc htc]
    simp [nameToPath]
  rw [convert]
  cases hs : resolveStartFrame page with
  | none => simp [isErr]
  | some startFrame =>
    have hiff := convertPage_error_iff (pageFuel page) env
      (buildRouting page.children).frameIdToSize (buildRouting page.children).frameIdToPath
      page.children (none, []) {} hp
    simp only [reduceCtorEq, false_or]
    cases hcp : convertPage (pageFuel page) env (buildRouting page.children).frameIdToSize
        (buildRouting page.children).frameIdToPath page.children (none, []) {} with
    | error e => simpa [isErr, hcp] using hiff
    | ok out => simpa [isErr, hcp] using hiff

/-- C9 (amended): a missing entry point (no prototype start node and no
convertible top-level child) or a failing raster export of a top-level frame
named `favicon.ico` — the one per-node export the code does not guard —
makes the whole conversion fail (first conjunct, pages with distinct ids).
Conversely, on pages free of image paints a failure implies one of those two
causes (second conjunct); the restriction is necessary because in the source
a rejected `img.getBytesAsync()` (part_002 lines 1091, 1127) or image bytes
shorter than the 28-byte header read `new DataView(bytes.buffer, 0, 28)`
(line 1128) also abort the conversion, failure paths outside this embedding's
total image store.  Every shape export failure is recovered at the node
boundary: when the vector export fails (or is skipped for image fills) and
the raster fallback also fails, the node converts to empty markup while
siblings and ancestors continue (third conjunct). -/
theorem C9_amended :
    (∀ (env : Env) (page : PageNode), (page.children.map (fun c => c.data.id)).Nodup →
      resolveStartFrame page = none ∨ hasFailingFavicon page.children = true →
      isErr (convert env page) = true)
      ∧ (∀ (env : Env) (page : PageNode), (page.children.map (fun c => c.data.id)).Nodup →
          pageNoImagePaints page = true →
          isErr (convert env page) = true →
          resolveStartFrame page = none ∨ hasFailingFavicon page.children = true)
      ∧ (∀ (chain : List SNode) (n : SNode) (ctx : Ctx),
          n.data.exportSVG = none → n.data.exportPNG = none →
          (convertShape chain n ctx).1 = str "") := by
  refine ⟨?_, ?_, ?_⟩
  · intro env page hnd h
    exact (convert_error_characterisation env page hnd).mpr h
  · intro env page hnd _ herr
    exact (convert_error_characterisation env page hnd).mp herr
  · intro chain n ctx h1 h2
    rw [convertShape]
    simp [h1, h2]

/-- C9 (counterexample): `pageC9` has a convertible top-level frame and no
image paints, yet the conversion fails, because its `favicon.ico` frame's
unguarded raster export throws — refuting "fails if and only if the page has
no convertible top-level node". -/
theorem C9_counterexample :
    isErr (convert envEmpty pageC9) = true
      ∧ pageC9.children.any (fun c => topConvertible c.data) = true
      ∧ pageNoImagePaints pageC9 = true := by
  exact ⟨by rfl, by decide, by decide⟩

/-- Witness for C9 at concrete inputs: `pageC9` (distinct ids, no image
paints, failing favicon) errors by the first conjunct; the second conjunct
applied to it recovers the failing-favicon cause; and a shape whose exports
both fail converts to empty markup by the third. -/
theorem C9_witness :
    isErr (convert envEmpty pageC9) = true
      ∧ (resolveStartFrame pageC9 = none ∨ hasFailingFavicon pageC9.children = true)
      ∧ (convertShape [] (SNode.node { ty := .vector, id := str "w9" } .nil) {}).1 = str "" := by
  refine ⟨?_, ?_, ?_⟩
  · exact C9_amended.1 envEmpty pageC9 (by decide) (Or.inr (by decide))
  · exact C9_amended.2.1 envEmpty pageC9 (by decide) (by decide) (by rfl)
  · exact C9_amended.2.2 [] (SNode.node { ty := .vector, id := str "w9" } .nil) {} rfl rfl

/-- The constraint-candidate walk is the identity on non-group nodes: the
`while` loop at part_002 lines 881-884 is entered only for groups. -/
theorem findConstraintsCandidate_nonGroup (n : SNode) (h : n.data.ty ≠ NType.group) :
    findConstraintsCandidate n = n := by
  cases n with
  | node d f =>
    cases f with
    | nil => rfl
    | cons c rest =>
      have hb : (d.ty == NType.group) = false := by
        simp only [SNode.data] at h
        exact beq_eq_false_iff_ne.mpr h
      simp [findConstraintsCandidate, hb]

/-- C5 (amended): for a non-group, non-text node with no auto-layout of its
own, sitting directly in a parent without auto-layout, a CENTER constraint
on an axis centres the outer wrapper and gives the inner element its
explicit size on that axis; the margin correction `leading − trailing` is
emitted unconditionally on the vertical axis, but on the horizontal axis
only when BOTH margins are non-zero — `if (bounds.left && bounds.right)`
treats a zero margin as falsy and silently drops the correction. -/
theorem C5_amended (parent node : SNode)
    (hpl : parent.data.layoutMode = LayoutModeV.noLayout)
    (hnl : node.data.layoutMode = LayoutModeV.noLayout)
    (hng : node.data.ty ≠ NType.group)
    (hnt : node.data.ty ≠ NType.text)
    (hcH : node.data.constraintH = CVal.ccenter)
    (hcV : node.data.constraintV = CVal.ccenter) :
    (getLayoutStyle [parent] node).outerClass = str "outerDiv"
      ∧ assocGet (getLayoutStyle [parent] node).outer (str "justify-content")
          = some (str "center")
      ∧ assocGet (getLayoutStyle [parent] node).outer (str "align-items")
          = some (str "center")
      ∧ assocGet (getLayoutStyle [parent] node).inner (str "width")
          = some (ratToStr (getBoundingBox node.data).w ++ str "px")
      ∧ assocGet (getLayoutStyle [parent] node).inner (str "height")
          = some (ratToStr (getBoundingBox node.data).h ++ str "px")
      ∧ assocGet (getLayoutStyle [parent] node).inner (str "margin-top")
          = some (ratToStr
              ((getBoundingBox node.data).y - (getBoundingBox parent.data).y
                - ((getBoundingBox parent.data).y + (getBoundingBox parent.data).h
                    - ((getBoundingBox node.data).y + (getBoundingBox node.data).h)))
              ++ str "px")
      ∧ ((getBoundingBox node.data).x - (getBoundingBox parent.data).x ≠ 0 →
          (getBoundingBox parent.data).x + (getBoundingBox parent.data).w
            - ((getBoundingBox node.data).x + (getBoundingBox node.data).w) ≠ 0 →
          assocGet (getLayoutStyle [parent] node).inner (str "margin-left")
            = some (ratToStr
                ((getBoundingBox node.data).x - (getBoundingBox parent.data).x
                  - ((getBoundingBox parent.data).x + (getBoundingBox parent.data).w
                      - ((getBoundingBox node.data).x + (getBoundingBox node.data).w)))
                ++ str "px"))
      ∧ ((getBoundingBox node.data).x - (getBoundingBox parent.data).x = 0
          ∨ (getBoundingBox parent.data).x + (getBoundingBox parent.data).w
              - ((getBoundingBox node.data).x + (getBoundingBox node.data).w) = 0 →
          assocGet (getLayoutStyle [parent] node).inner (str "margin-left") = none) := by
  have hcand : findConstraintsCandidate node = node :=
    findConstraintsCandidate_nonGroup node hng
  have htx : (node.data.ty == NType.text) = false := beq_eq_false_iff_ne.mpr hnt
  by_cases hb : (getBoundingBox node.data).x - (getBoundingBox parent.data).x ≠ 0
      ∧ (getBoundingBox parent.data).x + (getBoundingBox parent.data).w
          - ((getBoundingBox node.data).x + (getBoundingBox node.data).w) ≠ 0
  · refine ⟨?_, ?_, ?_, ?_, ?_, ?_, fun _ _ => ?_, fun hz => ?_⟩
    all_goals
      first
      | (exact absurd hb (by rcases hz with hz | hz <;> rintro ⟨h1, h2⟩ <;> [exact h1 hz; exact h2 hz]))
      | (simp +decide [getLayoutStyle, walkGroupChain, hcand, hpl, hnl, hcH, hcV, htx, hb,
          assocGet, assocSet])
  · refine ⟨?_, ?_, ?_, ?_, ?_, ?_, fun h1 h2 => absurd ⟨h1, h2⟩ hb, fun _ => ?_⟩
    all_goals
      simp +decide [getLayoutStyle, walkGroupChain, hcand, hpl, hnl, hcH, hcV, htx, hb,
        assocGet, assocSet]

/-- C5 (counterexample): `nodeC5zero` is horizontally CENTER-constrained in
`par5` with left margin 0 and right margin 30; the claim requires an inner
`margin-left` of `0 - 30 = -30px`, but the layout emits no `margin-left` at
all, even though the outer wrapper is centred and the inner width is
explicit. -/
theorem C5_counterexample :
    nodeC5zero.data.constraintH = CVal.ccenter
      ∧ assocGet (getLayoutStyle [par5] nodeC5zero).outer (str "justify-content")
          = some (str "center")
      ∧ assocGet (getLayoutStyle [par5] nodeC5zero).inner (str "width")
          = some (str "170px")
      ∧ (getBoundingBox nodeC5zero.data).x - (getBoundingBox par5.data).x = 0
      ∧ (getBoundingBox par5.data).x + (getBoundingBox par5.data).w
          - ((getBoundingBox nodeC5zero.data).x + (getBoundingBox nodeC5zero.data).w) = 30
      ∧ assocGet (getLayoutStyle [par5] nodeC5zero).inner (str "margin-left") = none := by
  refine ⟨rfl, ?_, ?_, ?_, ?_, ?_⟩ <;>
    norm_num +decide [getLayoutStyle, walkGroupChain, findConstraintsCandidate, getBoundingBox,
      hasLayoutMode, indexOfNode, min_def, max_def, assocGet, assocSet, nodeC5zero, par5,
      SNode.data, SNode.children]

/-- Witness for C5 at a concrete input: `nodeC5` (margins 10/30 and 20/40 in
`par5`) satisfies every hypothesis of the amended claim, and the theorem
yields the centred wrapper, the explicit `160px` width and the `-20px`
horizontal and vertical margin corrections of the spec's scenario. -/
theorem C5_witness :
    assocGet (getLayoutStyle [par5] nodeC5).outer (str "justify-content")
        = some (str "center")
      ∧ assocGet (getLayoutStyle [par5] nodeC5).inner (str "width") = some (str "160px")
      ∧ assocGet (getLayoutStyle [par5] nodeC5).inner (str "margin-left")
          = some (str "-20px")
      ∧ assocGet (getLayoutStyle [par5] nodeC5).inner (str "margin-top")
          = some (str "-20px") := by
  have h := C5_amended par5 nodeC5 rfl rfl (by decide) (by decide) rfl rfl
  refine ⟨h.2.1, ?_, ?_, ?_⟩
  · have hw := h.2.2.2.1
    rw [hw]
    norm_num +decide [getBoundingBox, nodeC5, SNode.data, min_def, max_def]
  · have hm := h.2.2.2.2.2.2.1
      (by norm_num [getBoundingBox, nodeC5, par5, SNode.data, min_def, max_def])
      (by norm_num [getBoundingBox, nodeC5, par5, SNode.data, min_def, max_def])
    rw [hm]
    norm_num +decide [getBoundingBox, nodeC5, par5, SNode.data, min_def, max_def]
  · have hm := h.2.2.2.2.2.1
    rw [hm]
    norm_num +decide [getBoundingBox, nodeC5, par5, SNode.data, min_def, max_def]
